import Mathlib

/-!
Shallow embedding of the bsrvcore HTTP server framework core
(route table, task lifecycle, session map, Set-Cookie builder,
server configuration gate), translated from the C++ sources, together
with theorems settling the frozen claims about the specification.

Conventions of the embedding:
* C++ pointers to handler / aspect objects are modelled by natural-number
  identities (`HandlerRef`, `AspectRef`); pointer equality becomes `Nat`
  equality.
* `std::size_t` / millisecond counts / time points are `Nat`.
* In-place mutation through a pointer obtained by descending a trie is
  modelled by functional path update.
* The boost URL parser is an external collaborator of the repository; its
  output (the segment view of the path) is passed to `Route` as an
  `Option (List String)`, `none` standing for a parse failure.
-/

namespace Bsrvcore

/-- Identity of a `HttpRequestHandler` object (a non-null C++ pointer). -/
abbrev HandlerRef := Nat

/-- Identity of a `HttpRequestAspectHandler` object (a non-null C++ pointer). -/
abbrev AspectRef := Nat

/-- The character `{` (written by code point to keep braces out of literals). -/
def leftBrace : Char := Char.ofNat 123

/-- The character `}` (written by code point). -/
def rightBrace : Char := Char.ofNat 125

/-- The apostrophe character, a member of the template character class. -/
def apostropheChar : Char := Char.ofNat 39

/-- The double-quote character, stripped around cookie values. -/
def quoteChar : Char := Char.ofNat 34

/-- `bsrvcore::HttpRequestMethod` (http_request_method.h): the six RESTful
methods, with underlying values 0..5. -/
inductive HttpRequestMethod : Type where
  | kGet | kPost | kPut | kDelete | kPatch | kHead
deriving DecidableEq, Repr

/-- `static_cast<size_t>(method)`: the underlying integer of the enum. -/
def methodIdx : HttpRequestMethod → Nat
  | .kGet => 0
  | .kPost => 1
  | .kPut => 2
  | .kDelete => 3
  | .kPatch => 4
  | .kHead => 5

/-- `HttpRouteTable::kHttpRequestMethodNum` (http_route_table.h). -/
def kHttpRequestMethodNum : Nat := 9

/-! ## Template validation (`route_internal::IsValidParametricTarget`,
http_route_table.cc lines 42-93) -/

/-- The literal-segment character class of the implementation regex
`[a-zA-Z0-9\-._~!$&'()*+,;=:@/?%#\[\]]`. -/
def isAllowedChar (c : Char) : Bool :=
  c.isAlpha || c.isDigit || "-._~!$&()*+,;=:@/?%#[]".toList.contains c
    || c = apostropheChar

/-- The parameter-name character class of the regex `[a-zA-Z0-9_\-]`. -/
def isParamChar (c : Char) : Bool :=
  c.isAlpha || c.isDigit || c = '_' || c = '-'

mutual

/-- Hand-compiled form of the body of the anchored implementation regex:
a sequence of items, each either one allowed literal character or a brace
group of parameter characters.  (The character classes exclude braces, so
the regex is deterministic and this recursive matcher is exact.) -/
def regexItems : List Char → Bool
  | [] => true
  | c :: rest =>
    if c = leftBrace then regexParamBody rest
    else isAllowedChar c && regexItems rest

/-- Matches `[a-zA-Z0-9_\-]*\}` followed by further items. -/
def regexParamBody : List Char → Bool
  | [] => false
  | c :: rest =>
    if c = rightBrace then regexItems rest
    else isParamChar c && regexParamBody rest

end

/-- The anchored regex `^/(literal|\{param\})*$` of
`IsValidParametricTarget`. -/
def regexValidTarget (l : List Char) : Bool :=
  match l with
  | [] => false
  | c :: rest => c = '/' && regexItems rest

/-- The brace pairing scan (http_route_table.cc lines 60-73): `{` increments,
`}` decrements, a negative count or a nonzero final count fails. -/
def braceScan : List Char → Int → Bool
  | [], cnt => cnt = 0
  | c :: rest, cnt =>
    if c = leftBrace then braceScan rest (cnt + 1)
    else if c = rightBrace then
      if cnt - 1 < 0 then false else braceScan rest (cnt - 1)
    else braceScan rest cnt

/-- The non-parametric projection (http_route_table.cc lines 76-86): the
characters outside brace groups. -/
def nonParamProjection : List Char → Bool → List Char
  | [], _ => []
  | c :: rest, inBrace =>
    if c = leftBrace then nonParamProjection rest true
    else if c = rightBrace then nonParamProjection rest false
    else if inBrace then nonParamProjection rest true
    else c :: nonParamProjection rest false

/-- `non_param_target.find("..") != npos`. -/
def hasDotDot : List Char → Bool
  | [] => false
  | [_] => false
  | a :: b :: rest => (a = '.' && b = '.') || hasDotDot (b :: rest)

/-- `route_internal::IsValidParametricTarget` (http_route_table.cc 42-93).
The basic check `target.empty() || target.length() > 2048 || target[0] != '/'`
is the first guard (`head? ≠ some '/'` covers both the empty string and a
wrong first character); then the regex, the brace pairing scan, and the
`..` scan over the non-parametric projection.  Targets are ASCII, so C++
byte length equals Lean character length. -/
def IsValidParametricTarget (target : String) : Bool :=
  if target.data = [] ∨ 2048 < target.data.length
      ∨ target.data.head? ≠ some '/' then false
  else if ¬ regexValidTarget target.data then false
  else if ¬ braceScan target.data 0 then false
  else if hasDotDot (nonParamProjection target.data false) then false
  else true

/-! ## Route layer (`route_internal::HttpRouteTableLayer`,
http_route_table_layer.cc) -/

/-- A trie node: literal children (`map_`, a `std::map` keyed by segment),
the parametric default child (`default_route_`), an optional handler, the
owned aspect list in insertion order, the per-layer limits, and the
exclusive flag (`ignore_default_route_`). -/
inductive HttpRouteTableLayer : Type where
  | mk
    (children : List (String × HttpRouteTableLayer))
    (default_route : Option HttpRouteTableLayer)
    (handler : Option HandlerRef)
    (aspects : List AspectRef)
    (max_body_size : Nat)
    (read_expiry : Nat)
    (write_expiry : Nat)
    (ignore_default_route : Bool)

namespace HttpRouteTableLayer

def children : HttpRouteTableLayer → List (String × HttpRouteTableLayer)
  | mk c _ _ _ _ _ _ _ => c

def default_route : HttpRouteTableLayer → Option HttpRouteTableLayer
  | mk _ d _ _ _ _ _ _ => d

def handler : HttpRouteTableLayer → Option HandlerRef
  | mk _ _ h _ _ _ _ _ => h

def aspects : HttpRouteTableLayer → List AspectRef
  | mk _ _ _ a _ _ _ _ => a

def max_body_size : HttpRouteTableLayer → Nat
  | mk _ _ _ _ m _ _ _ => m

def read_expiry : HttpRouteTableLayer → Nat
  | mk _ _ _ _ _ r _ _ => r

def write_expiry : HttpRouteTableLayer → Nat
  | mk _ _ _ _ _ _ w _ => w

def ignore_default_route : HttpRouteTableLayer → Bool
  | mk _ _ _ _ _ _ _ b => b

/-- The freshly constructed layer (`HttpRouteTableLayer::HttpRouteTableLayer`,
http_route_table_layer.cc 29-35): null children, null handler, zero limits,
exclusive flag off. -/
def emptyLayer : HttpRouteTableLayer := mk [] none none [] 0 0 0 false

/-- `HttpRouteTableLayer::GetRoute`: lookup in the literal child map. -/
def GetRoute (l : HttpRouteTableLayer) (key : String) :
    Option HttpRouteTableLayer :=
  (l.children.find? (fun p => p.1 == key)).map (fun p => p.2)

/-- `HttpRouteTableLayer::GetDefaultRoute`. -/
def GetDefaultRoute (l : HttpRouteTableLayer) : Option HttpRouteTableLayer :=
  l.default_route

/-- `HttpRouteTableLayer::GetHandler`. -/
def GetHandler (l : HttpRouteTableLayer) : Option HandlerRef := l.handler

/-- `HttpRouteTableLayer::GetIgnoreDefaultRoute`. -/
def GetIgnoreDefaultRoute (l : HttpRouteTableLayer) : Bool :=
  l.ignore_default_route

/-- `HttpRouteTableLayer::GetAspects`: the owned aspect pointers in insertion
order. -/
def GetAspects (l : HttpRouteTableLayer) : List AspectRef := l.aspects

/-- `HttpRouteTableLayer::GetAspectNum`. -/
def GetAspectNum (l : HttpRouteTableLayer) : Nat := l.aspects.length

def GetMaxBodySize (l : HttpRouteTableLayer) : Nat := l.max_body_size

def GetReadExpiry (l : HttpRouteTableLayer) : Nat := l.read_expiry

def GetWriteExpiry (l : HttpRouteTableLayer) : Nat := l.write_expiry

/-- `HttpRouteTableLayer::SetHandler` on a non-null handler pointer (the
null-rejecting branch is not exercised by the embedding, whose handler
references are always non-null). -/
def SetHandler (l : HttpRouteTableLayer) (h : HandlerRef) :
    HttpRouteTableLayer :=
  mk l.children l.default_route (some h) l.aspects l.max_body_size
    l.read_expiry l.write_expiry l.ignore_default_route

/-- `HttpRouteTableLayer::SetIgnoreDefaultRoute`. -/
def SetIgnoreDefaultRoute (l : HttpRouteTableLayer) (flag : Bool) :
    HttpRouteTableLayer :=
  mk l.children l.default_route l.handler l.aspects l.max_body_size
    l.read_expiry l.write_expiry flag

/-- `HttpRouteTableLayer::AddAspect`: append to the owned aspect list. -/
def AddAspect (l : HttpRouteTableLayer) (a : AspectRef) :
    HttpRouteTableLayer :=
  mk l.children l.default_route l.handler (l.aspects ++ [a]) l.max_body_size
    l.read_expiry l.write_expiry l.ignore_default_route

def SetMaxBodySize (l : HttpRouteTableLayer) (v : Nat) : HttpRouteTableLayer :=
  mk l.children l.default_route l.handler l.aspects v l.read_expiry
    l.write_expiry l.ignore_default_route

def SetReadExpiry (l : HttpRouteTableLayer) (v : Nat) : HttpRouteTableLayer :=
  mk l.children l.default_route l.handler l.aspects l.max_body_size v
    l.write_expiry l.ignore_default_route

def SetWriteExpiry (l : HttpRouteTableLayer) (v : Nat) : HttpRouteTableLayer :=
  mk l.children l.default_route l.handler l.aspects l.max_body_size
    l.read_expiry v l.ignore_default_route

/-- `map_.count(key) ? map_.at(key) = link : map_.emplace(key, link)`
inside `HttpRouteTableLayer::SetRoute`: replace the entry if the key is
present, otherwise add it (the empty-key and null-link rejections are not
exercised by the embedding). -/
def SetRoute (l : HttpRouteTableLayer) (key : String)
    (link : HttpRouteTableLayer) : HttpRouteTableLayer :=
  let m := l.children
  let m2 :=
    if m.any (fun p => p.1 == key) then
      m.map (fun p => if p.1 == key then (key, link) else p)
    else m ++ [(key, link)]
  mk m2 l.default_route l.handler l.aspects l.max_body_size l.read_expiry
    l.write_expiry l.ignore_default_route

/-- `HttpRouteTableLayer::SetDefaultRoute` on a non-null child. -/
def SetDefaultRoute (l : HttpRouteTableLayer) (link : HttpRouteTableLayer) :
    HttpRouteTableLayer :=
  mk l.children (some link) l.handler l.aspects l.max_body_size l.read_expiry
    l.write_expiry l.ignore_default_route

end HttpRouteTableLayer

export HttpRouteTableLayer (emptyLayer)

/-! ## Route table (`HttpRouteTable`, http_route_table.cc) -/

/-- `bsrvcore::HttpRouteResult` (http_route_result.h). -/
structure HttpRouteResult where
  current_location : String
  parameters : List String
  aspects : List AspectRef
  handler : HandlerRef
  max_body_size : Nat
  read_expiry : Nat
  write_expiry : Nat
deriving Repr

/-- `bsrvcore::HttpRouteTable`: per-method tries (`entrance_`, an array whose
slots are all initialized at construction — `none` stands for the
never-constructed state guarded against at http_route_table.cc:108),
global and method-global aspect lists, the default handler and default
limits. -/
structure HttpRouteTable where
  entrance : HttpRequestMethod → Option HttpRouteTableLayer
  global_aspects : List AspectRef
  global_specific_aspects : HttpRequestMethod → List AspectRef
  default_handler : HandlerRef
  default_max_body_size : Nat
  default_read_expiry : Nat
  default_write_expiry : Nat

/-- Pointer identity of the `EmptyRouteHandler` installed by the
constructor. -/
def emptyRouteHandlerRef : HandlerRef := 0

/-- `HttpRouteTable::HttpRouteTable` (http_route_table.cc 474-482): default
handler, limits 16384/4000/4000, and a fresh empty layer in every slot. -/
def initialHttpRouteTable : HttpRouteTable where
  entrance := fun _ => some emptyLayer
  global_aspects := []
  global_specific_aspects := fun _ => []
  default_handler := emptyRouteHandlerRef
  default_max_body_size := 16384
  default_read_expiry := 4000
  default_write_expiry := 4000

/-- `std::views::split(sep)` over a character list (accumulator holds the
current piece reversed): splitting `"/a/b"` on `/` yields
`["", "a", "b"]`, and the empty input yields `[""]`. -/
def splitOnChar (sep : Char) : List Char → List Char → List String
  | [], acc => [String.mk acc.reverse]
  | c :: rest, acc =>
    if c = sep then String.mk acc.reverse :: splitOnChar sep rest []
    else splitOnChar sep rest (c :: acc)

/-- `target.substr(0, target.find('?'))` split on `/`
(`GetOrCreateRouteTableLayer`, http_route_table.cc 221-225). -/
def splitTarget (target : String) : List String :=
  splitOnChar '/' (target.data.takeWhile (fun c => c ≠ '?')) []

/-- The descend-or-create loop of `HttpRouteTable::GetOrCreateRouteTableLayer`
(http_route_table.cc 227-257) combined with the mutation performed through
the returned pointer: empty words are skipped, a word starting with `{`
descends into (or creates) the default child, any other word descends into
(or creates) the literal child, and `f` is applied at the terminal layer. -/
def GetOrCreateApply (l : HttpRouteTableLayer) (segs : List String)
    (f : HttpRouteTableLayer → HttpRouteTableLayer) : HttpRouteTableLayer :=
  match segs with
  | [] => f l
  | w :: rest =>
    if w = "" then GetOrCreateApply l rest f
    else if w.front = leftBrace then
      match l.GetDefaultRoute with
      | some child => l.SetDefaultRoute (GetOrCreateApply child rest f)
      | none => l.SetDefaultRoute (GetOrCreateApply emptyLayer rest f)
    else
      match l.GetRoute w with
      | some child => l.SetRoute w (GetOrCreateApply child rest f)
      | none => l.SetRoute w (GetOrCreateApply emptyLayer rest f)

namespace HttpRouteTable

/-- Replace one method's trie. -/
def setEntrance (t : HttpRouteTable) (m : HttpRequestMethod)
    (l : HttpRouteTableLayer) : HttpRouteTable :=
  { t with entrance := fun m2 => if m2 = m then some l else t.entrance m2 }

/-- `HttpRouteTable::AddRouteEntry` (http_route_table.cc 164-188): reject
invalid templates, reject out-of-range methods, then install the handler at
the terminal layer of the created path. -/
def AddRouteEntry (t : HttpRouteTable) (m : HttpRequestMethod)
    (target : String) (h : HandlerRef) : Bool × HttpRouteTable :=
  if ¬ IsValidParametricTarget target then (false, t)
  else if kHttpRequestMethodNum < methodIdx m then (false, t)
  else
    match t.entrance m with
    | none => (false, t)
    | some l =>
      (true, t.setEntrance m
        (GetOrCreateApply l (splitTarget target) (fun lay => lay.SetHandler h)))

/-- `HttpRouteTable::AddExclusiveRouteEntry` (http_route_table.cc 190-215):
as `AddRouteEntry`, additionally setting the terminal layer's exclusive
flag. -/
def AddExclusiveRouteEntry (t : HttpRouteTable) (m : HttpRequestMethod)
    (target : String) (h : HandlerRef) : Bool × HttpRouteTable :=
  if ¬ IsValidParametricTarget target then (false, t)
  else if kHttpRequestMethodNum < methodIdx m then (false, t)
  else
    match t.entrance m with
    | none => (false, t)
    | some l =>
      (true, t.setEntrance m
        (GetOrCreateApply l (splitTarget target)
          (fun lay => (lay.SetHandler h).SetIgnoreDefaultRoute true)))

/-- `HttpRouteTable::AddAspect` (http_route_table.cc 351-370). -/
def AddAspect (t : HttpRouteTable) (m : HttpRequestMethod) (target : String)
    (a : AspectRef) : Bool × HttpRouteTable :=
  if kHttpRequestMethodNum < methodIdx m then (false, t)
  else if ¬ IsValidParametricTarget target then (false, t)
  else
    match t.entrance m with
    | none => (false, t)
    | some l =>
      (true, t.setEntrance m
        (GetOrCreateApply l (splitTarget target) (fun lay => lay.AddAspect a)))

/-- Method-scoped `HttpRouteTable::AddGlobalAspect` overload
(http_route_table.cc 372-384). -/
def AddGlobalAspectForMethod (t : HttpRouteTable) (m : HttpRequestMethod)
    (a : AspectRef) : Bool × HttpRouteTable :=
  if kHttpRequestMethodNum < methodIdx m then (false, t)
  else
    (true, { t with global_specific_aspects := fun m2 =>
      if m2 = m then t.global_specific_aspects m ++ [a]
      else t.global_specific_aspects m2 })

/-- Table-scoped `HttpRouteTable::AddGlobalAspect` overload
(http_route_table.cc 386-392). -/
def AddGlobalAspect (t : HttpRouteTable) (a : AspectRef) :
    Bool × HttpRouteTable :=
  (true, { t with global_aspects := t.global_aspects ++ [a] })

/-- `HttpRouteTable::SetWriteExpiry` (http_route_table.cc 394-413). -/
def SetWriteExpiry (t : HttpRouteTable) (m : HttpRequestMethod)
    (target : String) (v : Nat) : Bool × HttpRouteTable :=
  if kHttpRequestMethodNum < methodIdx m then (false, t)
  else if ¬ IsValidParametricTarget target then (false, t)
  else
    match t.entrance m with
    | none => (false, t)
    | some l =>
      (true, t.setEntrance m
        (GetOrCreateApply l (splitTarget target)
          (fun lay => lay.SetWriteExpiry v)))

/-- `HttpRouteTable::SetReadExpiry` (http_route_table.cc 415-434). -/
def SetReadExpiry (t : HttpRouteTable) (m : HttpRequestMethod)
    (target : String) (v : Nat) : Bool × HttpRouteTable :=
  if kHttpRequestMethodNum < methodIdx m then (false, t)
  else if ¬ IsValidParametricTarget target then (false, t)
  else
    match t.entrance m with
    | none => (false, t)
    | some l =>
      (true, t.setEntrance m
        (GetOrCreateApply l (splitTarget target)
          (fun lay => lay.SetReadExpiry v)))

/-- `HttpRouteTable::SetMaxBodySize` (http_route_table.cc 436-455). -/
def SetMaxBodySize (t : HttpRouteTable) (m : HttpRequestMethod)
    (target : String) (v : Nat) : Bool × HttpRouteTable :=
  if kHttpRequestMethodNum < methodIdx m then (false, t)
  else if ¬ IsValidParametricTarget target then (false, t)
  else
    match t.entrance m with
    | none => (false, t)
    | some l =>
      (true, t.setEntrance m
        (GetOrCreateApply l (splitTarget target)
          (fun lay => lay.SetMaxBodySize v)))

/-- `HttpRouteTable::SetDefaultWriteExpiry`. -/
def SetDefaultWriteExpiry (t : HttpRouteTable) (v : Nat) : HttpRouteTable :=
  { t with default_write_expiry := v }

/-- `HttpRouteTable::SetDefaultReadExpiry`. -/
def SetDefaultReadExpiry (t : HttpRouteTable) (v : Nat) : HttpRouteTable :=
  { t with default_read_expiry := v }

/-- `HttpRouteTable::SetDefaultMaxBodySize`. -/
def SetDefaultMaxBodySize (t : HttpRouteTable) (v : Nat) : HttpRouteTable :=
  { t with default_max_body_size := v }

/-- `HttpRouteTable::SetDefaultHandler`. -/
def SetDefaultHandler (t : HttpRouteTable) (h : HandlerRef) : HttpRouteTable :=
  { t with default_handler := h }

/-- `HttpRouteTable::BuildDefaultRouteResult` (http_route_table.cc 260-279):
location `/`, no parameters, the global aspects only, the configured default
handler, the default limits. -/
def BuildDefaultRouteResult (t : HttpRouteTable) : HttpRouteResult where
  current_location := "/"
  parameters := []
  aspects := t.global_aspects
  handler := t.default_handler
  max_body_size := t.default_max_body_size
  read_expiry := t.default_read_expiry
  write_expiry := t.default_write_expiry

end HttpRouteTable

/-- The loop of `HttpRouteTable::MatchSegments` (http_route_table.cc
281-320) over the parsed path segments.  For every segment a `/` is first
appended to the location; empty segments are skipped; a matching literal
child is preferred; otherwise an exclusive layer terminates matching at
itself (`break`); otherwise the default child is taken and the raw segment
is captured; otherwise matching fails (`none`). -/
def MatchSegments (layer : HttpRouteTableLayer) (segs : List String)
    (loc : String) (params : List String) :
    Option (String × List String × HttpRouteTableLayer) :=
  match segs with
  | [] => some (loc, params, layer)
  | seg :: rest =>
    let loc2 := loc ++ "/"
    if seg = "" then MatchSegments layer rest loc2 params
    else
      match layer.GetRoute seg with
      | some next => MatchSegments next rest (loc2 ++ seg) params
      | none =>
        if layer.GetIgnoreDefaultRoute then some (loc2, params, layer)
        else
          match layer.GetDefaultRoute with
          | none => none
          | some d =>
            MatchSegments d rest (loc2 ++ seg) (params ++ [seg])

namespace HttpRouteTable

/-- `HttpRouteTable::CollectAspects` (http_route_table.cc 322-349): the
global aspects, then the method-global aspects (the array-bound guard
`method_idx < global_specific_aspects_.size()` always holds since every
method index is below `kHttpRequestMethodNum`), then the matched layer's
aspects. -/
def CollectAspects (t : HttpRouteTable) (layer : HttpRouteTableLayer)
    (m : HttpRequestMethod) : List AspectRef :=
  t.global_aspects ++ t.global_specific_aspects m ++ layer.GetAspects

/-- `HttpRouteTable::Route` (http_route_table.cc 98-162).  `parsed` is the
outcome of `boost::urls::parse_uri_reference` on the target, reduced to the
path-segment view consumed by `MatchSegments`; `none` is a parse failure. -/
def Route (t : HttpRouteTable) (m : HttpRequestMethod)
    (parsed : Option (List String)) : HttpRouteResult :=
  match t.entrance m with
  | none => t.BuildDefaultRouteResult
  | some layer0 =>
    match parsed with
    | none => t.BuildDefaultRouteResult
    | some segs =>
      match MatchSegments layer0 segs "" [] with
      | none => t.BuildDefaultRouteResult
      | some (loc, params, lay) =>
        let aspects := t.CollectAspects lay m
        match lay.GetHandler with
        | none => t.BuildDefaultRouteResult
        | some h =>
          { current_location := loc
            parameters := params
            aspects := aspects
            handler := h
            max_body_size :=
              if lay.GetMaxBodySize ≠ 0 then lay.GetMaxBodySize
              else t.default_max_body_size
            read_expiry :=
              if lay.GetReadExpiry ≠ 0 then lay.GetReadExpiry
              else t.default_read_expiry
            write_expiry :=
              if lay.GetWriteExpiry ≠ 0 then lay.GetWriteExpiry
              else t.default_write_expiry }

end HttpRouteTable

/-! ## Task execution trace (`HttpServerTask::Start/DoPreService/DoService/
DoPostService`, http_server_task.cc — src/unnamed/part_024 lines 336-379) -/

/-- An observable invocation on the task: an aspect's `PreService`, the
handler's `Service`, or an aspect's `PostService`. -/
inductive TaskEvent : Type where
  | pre (a : AspectRef)
  | service (h : HandlerRef)
  | post (a : AspectRef)
deriving DecidableEq, Repr

/-- `HttpServerTask::DoPostService` (part_024 lines 366-379): invoke
`aspects[i]->PostService`, then continue with `i - 1` while `i ≠ 0`.
The `curr_idx >= size` guard is the `assert(0)` branch. -/
def DoPostService (aspects : List AspectRef) (i : Nat) : List TaskEvent :=
  if hge : aspects.length ≤ i then []
  else
    TaskEvent.post (aspects.get ⟨i, by omega⟩) ::
      (if h0 : i ≠ 0 then DoPostService aspects (i - 1) else [])
termination_by i
decreasing_by omega

/-- `HttpServerTask::DoService` (part_024 lines 356-364): invoke the
handler, then start the post pass at index `size - 1` when the aspect list
is non-empty. -/
def DoService (aspects : List AspectRef) (hdl : HandlerRef) : List TaskEvent :=
  TaskEvent.service hdl ::
    (if aspects.isEmpty then [] else DoPostService aspects (aspects.length - 1))

/-- `HttpServerTask::DoPreService` (part_024 lines 340-354): the
`curr_idx > size` guard is the `assert(0)` branch; at `curr_idx = size` the
handler runs; otherwise `aspects[i]->PreService` runs and the pass continues
with `i + 1`. -/
def DoPreService (aspects : List AspectRef) (hdl : HandlerRef) (i : Nat) :
    List TaskEvent :=
  if hgt : aspects.length < i then []
  else if heq : i = aspects.length then DoService aspects hdl
  else
    TaskEvent.pre (aspects.get ⟨i, by omega⟩) :: DoPreService aspects hdl (i + 1)
termination_by aspects.length - i
decreasing_by omega

/-- `HttpServerTask::Start` (part_024 lines 336-338): the chain begins with
`DoPreService(0)`; each step posts its successor to the server thread pool,
so the events of one task form this sequential trace. -/
def TaskTrace (aspects : List AspectRef) (hdl : HandlerRef) : List TaskEvent :=
  DoPreService aspects hdl 0

/-! ## Set-Cookie builder (`ServerSetCookie`, server_set_cookie.cc —
src/unnamed/part_026) -/

/-- `bsrvcore::SameSite` (server_set_cookie.h). -/
inductive SameSite : Type where
  | kStrict | kLax | kNone
deriving DecidableEq, Repr

/-- `bsrvcore::ServerSetCookie`: all fields optional, unset by default. -/
structure ServerSetCookie where
  name : Option String := none
  value : Option String := none
  expiry : Option String := none
  path : Option String := none
  domain : Option String := none
  max_age : Option Int := none
  same_site : Option SameSite := none
  secure : Option Bool := none
  http_only : Option Bool := none
deriving DecidableEq, Repr

namespace ServerSetCookie

def SetName (c : ServerSetCookie) (s : String) : ServerSetCookie :=
  { c with name := some s }

def SetValue (c : ServerSetCookie) (s : String) : ServerSetCookie :=
  { c with value := some s }

def SetExpires (c : ServerSetCookie) (s : String) : ServerSetCookie :=
  { c with expiry := some s }

def SetMaxAge (c : ServerSetCookie) (a : Int) : ServerSetCookie :=
  { c with max_age := some a }

def SetPath (c : ServerSetCookie) (s : String) : ServerSetCookie :=
  { c with path := some s }

def SetDomain (c : ServerSetCookie) (s : String) : ServerSetCookie :=
  { c with domain := some s }

def SetSameSite (c : ServerSetCookie) (s : SameSite) : ServerSetCookie :=
  { c with same_site := some s }

def SetSecure (c : ServerSetCookie) (b : Bool) : ServerSetCookie :=
  { c with secure := some b }

def SetHttpOnly (c : ServerSetCookie) (b : Bool) : ServerSetCookie :=
  { c with http_only := some b }

/-- `std::isspace` over the characters that can occur here. -/
def isCxxSpace (c : Char) : Bool :=
  c = ' ' || c = '\t' || c = '\n' || c = Char.ofNat 11 || c = Char.ofNat 12
    || c = '\r'

/-- The trailing `while (isspace(back) || back == ';') pop_back()` loop of
`ServerSetCookie::ToString` (part_026 lines 143-145). -/
def dropTrailingJunk (l : List Char) : List Char :=
  (l.reverse.dropWhile (fun c => isCxxSpace c || c = ';')).reverse

/-- `ServerSetCookie::ToString` (part_026 lines 68-148), translated
faithfully: an absent or empty name or value yields the empty string;
otherwise the name is concatenated with the value **without a separator**
(`std::move(name_.value()) + std::move(value_.value())`), followed by the
present attributes in the order Expires, Path, Domain, Max-Age, SameSite,
then `Secure` when SameSite is None or the secure flag is set, then
`HttpOnly`, with trailing `;`/whitespace trimmed. -/
def ToString (c : ServerSetCookie) : String :=
  match c.name, c.value with
  | some n, some v =>
    if n = "" || v = "" then ""
    else
      let r := n ++ v ++ ";"
      let r :=
        match c.expiry with
        | some e => if e ≠ "" then r ++ " Expires=" ++ e ++ ";" else r
        | none => r
      let r :=
        match c.path with
        | some p => if p ≠ "" then r ++ " Path=" ++ p ++ ";" else r
        | none => r
      let r :=
        match c.domain with
        | some d => if d ≠ "" then r ++ " Domain=" ++ d ++ ";" else r
        | none => r
      let r :=
        match c.max_age with
        | some a => r ++ " Max-Age=" ++ toString a ++ ";"
        | none => r
      let r :=
        match c.same_site with
        | some ss =>
          r ++ " SameSite=" ++
            (match ss with
             | SameSite.kStrict => "Strict"
             | SameSite.kLax => "Lax"
             | SameSite.kNone => "None") ++ ";"
        | none => r
      let r :=
        if c.same_site = some SameSite.kNone then r ++ " Secure;"
        else if c.secure = some true then r ++ " Secure;"
        else r
      let r :=
        if c.http_only = some true then r ++ " HttpOnly;" else r
      String.mk (dropTrailingJunk r.data)
  | _, _ => ""

end ServerSetCookie

/-! ## Cookie parsing and session-id handling (`HttpServerTask`,
http_server_task.cc — src/unnamed/part_024) -/

/-- The whitespace set of `connection_internal::helper::TrimView`
(part_024 line 42): space, tab, CR, LF. -/
def trimWsChars : List Char := [' ', '\t', '\r', '\n']

/-- `helper::TrimView` (part_024 lines 41-51). -/
def TrimView (s : String) : String :=
  String.mk
    (((s.data.dropWhile (fun c => trimWsChars.contains c)).reverse.dropWhile
      (fun c => trimWsChars.contains c)).reverse)

/-- `token.find('=')` split: `none` when no `=` occurs, otherwise the parts
before and after the first `=`. -/
def splitAtFirstEq : List Char → Option (List Char × List Char)
  | [] => none
  | c :: rest =>
    if c = '=' then some ([], rest)
    else (splitAtFirstEq rest).map (fun p => (c :: p.1, p.2))

/-- The quote stripping of `helper::ParseCookiePairView` (part_024 lines
71-73): surrounding double quotes are removed when the value has length at
least two and both ends are quotes. -/
def stripQuotes (v : List Char) : List Char :=
  if v.length ≥ 2 ∧ v.head? = some quoteChar ∧ v.getLast? = some quoteChar
  then (v.drop 1).dropLast
  else v

/-- `helper::ParseCookiePairView` (part_024 lines 53-76). -/
def ParseCookiePairView (token : String) : String × String :=
  let t := TrimView token
  if t = "" then ("", "")
  else
    match splitAtFirstEq t.data with
    | none => (TrimView t, "")
    | some (n, v) =>
      let nm := TrimView (String.mk n)
      let vl := TrimView (String.mk v)
      (nm, String.mk (stripQuotes vl.data))

/-- `helper::SplitCookieHeaderUsingSplit` (part_024 lines 85-106): split the
header on `;` and trim each token. -/
def SplitCookieHeaderUsingSplit (header : String) : List String :=
  (splitOnChar ';' header.data []).map TrimView

/-- `helper::ToLowerString` (part_024 lines 78-83). -/
def ToLowerString (s : String) : String := String.mk (s.data.map Char.toLower)

/-- Lexicographic byte order on character lists (`std::string::operator<`
over ASCII keys). -/
def strLtChars : List Char → List Char → Bool
  | [], [] => false
  | [], _ :: _ => true
  | _ :: _, [] => false
  | a :: as, b :: bs =>
    if a.toNat < b.toNat then true
    else if b.toNat < a.toNat then false
    else strLtChars as bs

/-- `operator<` of the `std::map` key type. -/
def strLt (a b : String) : Bool := strLtChars a.data b.data

/-- `HttpServerTask::GenerateCookiePairs` (part_024 lines 134-149): parse
each token and store non-empty names in the `std::map` `cookies_` (sorted
by key, later assignments overwrite). -/
def mapInsertSorted (m : List (String × String)) (k v : String) :
    List (String × String) :=
  match m with
  | [] => [(k, v)]
  | (k0, v0) :: rest =>
    if k = k0 then (k0, v) :: rest
    else if strLt k k0 then (k, v) :: (k0, v0) :: rest
    else (k0, v0) :: mapInsertSorted rest k v

/-- The parsed cookie map of a request `Cookie` header value. -/
def GenerateCookiePairs (header : String) : List (String × String) :=
  (SplitCookieHeaderUsingSplit header).foldl
    (fun m tok =>
      let p := ParseCookiePairView tok
      if p.1 ≠ "" then mapInsertSorted m p.1 p.2 else m)
    []

/-- The task-local state relevant to session-cookie handling: the parsed
request cookies (`cookies_`, parsed on first use — modelled eagerly), the
memoized session id (`sessionid_`), the pending Set-Cookie builders
(`set_cookies_`), the response header fields (`resp_`, multimap semantics),
and the lifecycle flags. -/
structure HttpServerTaskState where
  cookies : List (String × String)
  sessionid : Option String
  set_cookies : List ServerSetCookie
  resp_fields : List (String × String)
  keep_alive : Bool
  manual_connection_management : Bool
deriving Repr

/-- `HttpServerTask::HttpServerTask` (part_024 lines 123-132) as far as the
session-cookie machinery is concerned, for a request whose `Cookie` header
is `header`. -/
def initTask (header : String) : HttpServerTaskState where
  cookies := GenerateCookiePairs header
  sessionid := none
  set_cookies := []
  resp_fields := []
  keep_alive := true
  manual_connection_management := false

/-- `HttpServerTask::AddCookie` (part_024 lines 307-312). -/
def AddCookie (t : HttpServerTaskState) (c : ServerSetCookie) :
    HttpServerTaskState :=
  { t with set_cookies := t.set_cookies ++ [c] }

/-- `HttpServerTask::GetSessionId` (part_024 lines 157-180).  The scan over
the sorted cookie map assigns `sessionid_` from the first key equal to
`sessionid` case-insensitively; when `sessionid_` is still unset a fresh id
is generated (`uuid`, the output of the thread-local UUID generator, is
passed in as the external input) and a `sessionId` Set-Cookie builder is
queued. -/
def GetSessionId (uuid : String) (t : HttpServerTaskState) :
    String × HttpServerTaskState :=
  let scanned :=
    match t.cookies.find? (fun p => ToLowerString p.1 == "sessionid") with
    | some p => some p.2
    | none => t.sessionid
  match scanned with
  | some v => (v, { t with sessionid := some v })
  | none =>
    let cookie := (({} : ServerSetCookie).SetName "sessionId").SetValue uuid
    (uuid, AddCookie { t with sessionid := some uuid } cookie)

/-- `HttpServerTask::~HttpServerTask` (part_024 lines 284-305): on the
manual path the connection is untouched; otherwise every pending builder
with a non-empty serialization is inserted as a `Set-Cookie` response
header (beast `fields::insert` appends), and the response is handed to the
connection.  The function returns the final response header list. -/
def FinalizeTask (t : HttpServerTaskState) : List (String × String) :=
  if t.manual_connection_management then t.resp_fields
  else
    t.resp_fields ++
      t.set_cookies.filterMap (fun c =>
        if c.ToString ≠ "" then some ("Set-Cookie", c.ToString) else none)

/-- Number of `Set-Cookie` headers in a response header list. -/
def countSetCookie (fields : List (String × String)) : Nat :=
  (fields.filter (fun p => p.1 == "Set-Cookie")).length

/-! ## Aspect adapters (`FunctionRequestAspectHandler`) -/

/-- The canonical `FunctionRequestAspectHandler` of
src/include/bsrvcore/http_request_aspect_handler.h (lines 114-141): `f1_`
is the pre-service callable, `f2_` the post-service callable.  Callables
are modelled as task transformers over an abstract task type `σ`. -/
structure FunctionRequestAspectHandler (σ : Type) where
  f1 : σ → σ
  f2 : σ → σ

/-- Canonical header, `PreService` (line 123): `f1_(task)`. -/
def FunctionRequestAspectHandler.PreService
    (a : FunctionRequestAspectHandler σ) (task : σ) : σ :=
  a.f1 task

/-- Canonical header, `PostService` (line 129): `f2_(task)`. -/
def FunctionRequestAspectHandler.PostService
    (a : FunctionRequestAspectHandler σ) (task : σ) : σ :=
  a.f2 task

/-- The duplicate copy of `http_request_aspect_handler.h` bundled in the
`http_server.h` amalgamation (src/unnamed/part_006 lines 611-623).  It has
the same constructor but its `PostService` body is `f1_(task)`. -/
structure FunctionRequestAspectHandlerDup (σ : Type) where
  f1 : σ → σ
  f2 : σ → σ

/-- Duplicate copy, `PreService`: `f1_(task)`. -/
def FunctionRequestAspectHandlerDup.PreService
    (a : FunctionRequestAspectHandlerDup σ) (task : σ) : σ :=
  a.f1 task

/-- Duplicate copy, `PostService`: `f1_(task)` — the pre-service callable
again. -/
def FunctionRequestAspectHandlerDup.PostService
    (a : FunctionRequestAspectHandlerDup σ) (task : σ) : σ :=
  a.f1 task

/-! ## Server facade configuration gate (`HttpServer`,
http_server_config.cc — src/unnamed/part_023, and http_server_accept.cc —
src/unnamed/part_022) -/

/-- The configuration-relevant state of `bsrvcore::HttpServer`: the running
flag, the route table, the configuration scalars, and opaque references for
logger / TLS context / listener endpoints. -/
structure HttpServer where
  is_running : Bool
  route_table : HttpRouteTable
  keep_alive_timeout : Nat
  header_read_expiry : Nat
  logger : Nat
  ssl_ctx : Option Nat
  acceptors : List Nat

namespace HttpServer

/-- `HttpServer::AddRouteEntry` (part_023 lines 47-58): no-op while
running, otherwise delegate to the route table; always returns the server
for chaining. -/
def AddRouteEntry (s : HttpServer) (m : HttpRequestMethod) (url : String)
    (hdl : HandlerRef) : HttpServer :=
  if s.is_running then s
  else { s with route_table := (s.route_table.AddRouteEntry m url hdl).2 }

/-- `HttpServer::AddExclusiveRouteEntry` (part_023 lines 60-71). -/
def AddExclusiveRouteEntry (s : HttpServer) (m : HttpRequestMethod)
    (url : String) (hdl : HandlerRef) : HttpServer :=
  if s.is_running then s
  else
    { s with route_table := (s.route_table.AddExclusiveRouteEntry m url hdl).2 }

/-- `HttpServer::AddAspect` (part_023 lines 73-84). -/
def AddAspect (s : HttpServer) (m : HttpRequestMethod) (url : String)
    (a : AspectRef) : HttpServer :=
  if s.is_running then s
  else { s with route_table := (s.route_table.AddAspect m url a).2 }

/-- Method-scoped `HttpServer::AddGlobalAspect` (part_023 lines 86-97). -/
def AddGlobalAspectForMethod (s : HttpServer) (m : HttpRequestMethod)
    (a : AspectRef) : HttpServer :=
  if s.is_running then s
  else { s with route_table := (s.route_table.AddGlobalAspectForMethod m a).2 }

/-- Table-scoped `HttpServer::AddGlobalAspect` (part_023 lines 99-109). -/
def AddGlobalAspect (s : HttpServer) (a : AspectRef) : HttpServer :=
  if s.is_running then s
  else { s with route_table := (s.route_table.AddGlobalAspect a).2 }

/-- `HttpServer::AddListen` (part_023 lines 111-120). -/
def AddListen (s : HttpServer) (ep : Nat) : HttpServer :=
  if s.is_running then s else { s with acceptors := s.acceptors ++ [ep] }

/-- `HttpServer::SetReadExpiry` (part_023 lines 122-133). -/
def SetReadExpiry (s : HttpServer) (m : HttpRequestMethod) (url : String)
    (v : Nat) : HttpServer :=
  if s.is_running then s
  else { s with route_table := (s.route_table.SetReadExpiry m url v).2 }

/-- `HttpServer::SetHeaderReadExpiry` (part_023 lines 135-144). -/
def SetHeaderReadExpiry (s : HttpServer) (v : Nat) : HttpServer :=
  if s.is_running then s else { s with header_read_expiry := v }

/-- `HttpServer::SetWriteExpiry` (part_023 lines 146-157). -/
def SetWriteExpiry (s : HttpServer) (m : HttpRequestMethod) (url : String)
    (v : Nat) : HttpServer :=
  if s.is_running then s
  else { s with route_table := (s.route_table.SetWriteExpiry m url v).2 }

/-- `HttpServer::SetMaxBodySize` (part_023 lines 159-169). -/
def SetMaxBodySize (s : HttpServer) (m : HttpRequestMethod) (url : String)
    (v : Nat) : HttpServer :=
  if s.is_running then s
  else { s with route_table := (s.route_table.SetMaxBodySize m url v).2 }

/-- `HttpServer::SetDefaultReadExpiry` (part_023 lines 171-180). -/
def SetDefaultReadExpiry (s : HttpServer) (v : Nat) : HttpServer :=
  if s.is_running then s
  else { s with route_table := s.route_table.SetDefaultReadExpiry v }

/-- `HttpServer::SetDefaultWriteExpiry` (part_023 lines 182-191). -/
def SetDefaultWriteExpiry (s : HttpServer) (v : Nat) : HttpServer :=
  if s.is_running then s
  else { s with route_table := s.route_table.SetDefaultWriteExpiry v }

/-- `HttpServer::SetDefaultMaxBodySize` (part_023 lines 193-202). -/
def SetDefaultMaxBodySize (s : HttpServer) (v : Nat) : HttpServer :=
  if s.is_running then s
  else { s with route_table := s.route_table.SetDefaultMaxBodySize v }

/-- `HttpServer::SetKeepAliveTimeout` (part_023 lines 204-213). -/
def SetKeepAliveTimeout (s : HttpServer) (v : Nat) : HttpServer :=
  if s.is_running then s else { s with keep_alive_timeout := v }

/-- `HttpServer::SetDefaultHandler` (part_023 lines 215-225). -/
def SetDefaultHandler (s : HttpServer) (hdl : HandlerRef) : HttpServer :=
  if s.is_running then s
  else { s with route_table := s.route_table.SetDefaultHandler hdl }

/-- `HttpServer::SetSslContext` (part_023 lines 227-236). -/
def SetSslContext (s : HttpServer) (ctx : Nat) : HttpServer :=
  if s.is_running then s else { s with ssl_ctx := some ctx }

/-- `HttpServer::UnsetSslContext` (part_023 lines 238-247). -/
def UnsetSslContext (s : HttpServer) : HttpServer :=
  if s.is_running then s else { s with ssl_ctx := none }

/-- `HttpServer::SetLogger` (part_023 lines 249-258). -/
def SetLogger (s : HttpServer) (lg : Nat) : HttpServer :=
  if s.is_running then s else { s with logger := lg }

/-- `HttpServer::Start` (http_server_accept.cc, part_022 lines 179-203):
reject a zero thread count, reject when already running, otherwise flip the
running flag (acceptor and I/O thread startup are external effects). -/
def Start (s : HttpServer) (thread_cnt : Nat) : Bool × HttpServer :=
  if thread_cnt = 0 then (false, s)
  else if s.is_running then (false, s)
  else (true, { s with is_running := true })

/-- `HttpServer::Stop` (part_022 lines 205-248): a no-op when stopped;
otherwise the running flag is cleared, listeners are closed and re-created
on the saved endpoints, and the pools are rebuilt — the configuration state
(route table, scalars, logger, TLS context, endpoints) is preserved. -/
def Stop (s : HttpServer) : HttpServer :=
  if ¬ s.is_running then s else { s with is_running := false }

/-- `HttpServer::Route` (http_server.cc, part_022 lines 108-111). -/
def Route (s : HttpServer) (m : HttpRequestMethod)
    (parsed : Option (List String)) : HttpRouteResult :=
  s.route_table.Route m parsed

/-- `HttpServer::IsRunning`. -/
def IsRunning (s : HttpServer) : Bool := s.is_running

end HttpServer

/-! ## Session map (`SessionMap`, session_map.cc, with the binary heap of
heap.h and the entry types of session_context_entry.h /
session_key_heap_entry.h).  `std::chrono` time points and durations are
milliseconds as `Nat`; `std::shared_ptr<Context>` identities are `Nat`,
with a freshness counter standing for `std::make_shared`. -/

/-- `session_internal::SessionKeyHeapEntry`. -/
structure SessionKeyHeapEntry where
  id : String
  expiry : Nat
deriving DecidableEq, Repr

instance : Inhabited SessionKeyHeapEntry := ⟨⟨"", 0⟩⟩

/-- `SessionKeyHeapEntry::operator<` (session_key_heap_entry.cc): inverted
on expiry, so the `Heap` (which tops its largest element under `<`) tops
the earliest expiry. -/
def heapEntryLt (a b : SessionKeyHeapEntry) : Bool := b.expiry < a.expiry

/-- The sift-up loop of `Heap::Push` (heap.h): while the parent index is
nonzero and the parent compares below the new element, the parent moves
down; the new element lands at the reached slot.  The loop runs at most
`child` times (the index strictly decreases while positive), so the
structural fuel — initialized to `child` by `heapSiftUp` — never runs out
first. -/
def heapSiftUpGo : Nat → List SessionKeyHeapEntry → Nat →
    SessionKeyHeapEntry → List SessionKeyHeapEntry
  | 0, c, child, tmp => c.set child tmp
  | fuel + 1, c, child, tmp =>
    if child / 2 = 0 then c.set child tmp
    else if heapEntryLt (c.get! (child / 2)) tmp then
      heapSiftUpGo fuel (c.set child (c.get! (child / 2))) (child / 2) tmp
    else c.set child tmp

/-- The sift-up loop entered at index `child`. -/
def heapSiftUp (c : List SessionKeyHeapEntry) (child : Nat)
    (tmp : SessionKeyHeapEntry) : List SessionKeyHeapEntry :=
  heapSiftUpGo child c child tmp

/-- `Heap::Push`: append at `curr_idx = size()`, then sift up. -/
def heapPush (c : List SessionKeyHeapEntry) (v : SessionKeyHeapEntry) :
    List SessionKeyHeapEntry :=
  heapSiftUp (c ++ [v]) c.length v

/-- The sift-down loop of `Heap::Pop` (heap.h).  The heap is 1-based with
a sentinel at slot 0 (`Heap() : container_(1)`); the sift starts at the
root index 1 and the index at least doubles per iteration while `≤ last`,
so the structural fuel — initialized to `last + 1` by `heapSiftDown` —
never runs out first. -/
def heapSiftDownGo : Nat → List SessionKeyHeapEntry → Nat →
    SessionKeyHeapEntry → Nat → List SessionKeyHeapEntry
  | 0, c, curr, tmp, _ => c.set curr tmp
  | fuel + 1, c, curr, tmp, last =>
    if last < curr * 2 then c.set curr tmp
    else
      let left := curr * 2
      let right := left + 1
      if last < right then
        if heapEntryLt tmp (c.get! left) then
          heapSiftDownGo fuel (c.set curr (c.get! left)) left tmp last
        else c.set curr tmp
      else
        let toComp := if heapEntryLt (c.get! left) (c.get! right) then right
                      else left
        if heapEntryLt tmp (c.get! toComp) then
          heapSiftDownGo fuel (c.set curr (c.get! toComp)) toComp tmp last
        else c.set curr tmp

/-- The sift-down loop entered at the root. -/
def heapSiftDown (c : List SessionKeyHeapEntry) (curr : Nat)
    (tmp : SessionKeyHeapEntry) (last : Nat) : List SessionKeyHeapEntry :=
  heapSiftDownGo (last + 1) c curr tmp last

/-- `Heap::Pop`: take the root (slot 1), move the last element out, shrink,
and sift it down from the root. -/
def heapPop (c : List SessionKeyHeapEntry) :
    SessionKeyHeapEntry × List SessionKeyHeapEntry :=
  let result := c.get! 1
  let tmp := c.get! (c.length - 1)
  let c2 := c.dropLast
  let last := c2.length - 1
  if last < 1 then (result, c2)
  else (result, heapSiftDown c2 1 tmp last)

/-- `Heap::Top`. -/
def heapTop (c : List SessionKeyHeapEntry) : SessionKeyHeapEntry := c.get! 1

/-- `Heap::IsEmpty` (`size() <= 1`, slot 0 being the sentinel). -/
def heapIsEmpty (c : List SessionKeyHeapEntry) : Bool := c.length ≤ 1

/-- `Heap::GetSize` (`size() - 1`). -/
def heapGetSize (c : List SessionKeyHeapEntry) : Nat := c.length - 1

/-- The freshly constructed heap: the sentinel alone. -/
def heapInit : List SessionKeyHeapEntry := [default]

/-- `session_internal::SessionContextEntry`: a `Context` reference and an
expiry time point. -/
structure SessionContextEntry where
  ctx : Nat
  expiry : Nat
deriving DecidableEq, Repr

/-- `kMinSessionTimeout` (session_map.cc line 30), in milliseconds. -/
def kMinSessionTimeout : Nat := 1000

/-- The state of `bsrvcore::SessionMap`: the id → entry map (`map_`, an
`std::unordered_map`, modelled as an association list with unique keys),
the expiry heap (`pqueue_`), the default timeout, and the freshness counter
for newly allocated `Context` objects. -/
structure SessionMap where
  map : List (String × SessionContextEntry)
  pqueue : List SessionKeyHeapEntry
  default_timeout : Nat
  next_ctx : Nat
deriving Repr

/-- `map_.count(id) / map_.at(id)` combined lookup (keys are unique). -/
def lookupEntry : List (String × SessionContextEntry) → String →
    Option SessionContextEntry
  | [], _ => none
  | p :: rest, id => if p.1 = id then some p.2 else lookupEntry rest id

/-- `map_.at(id).SetExpiry(e)`: update the entry found under `id`. -/
def setEntryExpiry : List (String × SessionContextEntry) → String → Nat →
    List (String × SessionContextEntry)
  | [], _, _ => []
  | p :: rest, id, e =>
    if p.1 = id then (p.1, ⟨p.2.ctx, e⟩) :: rest
    else p :: setEntryExpiry rest id e

/-- `map_.emplace(id, v)`: no effect when the key is already present. -/
def emplaceEntry (m : List (String × SessionContextEntry)) (id : String)
    (v : SessionContextEntry) : List (String × SessionContextEntry) :=
  if (lookupEntry m id).isSome then m else m ++ [(id, v)]

/-- `map_.erase(it)` for the entry found under `id` (keys are unique). -/
def eraseEntry : List (String × SessionContextEntry) → String →
    List (String × SessionContextEntry)
  | [], _ => []
  | p :: rest, id =>
    if p.1 = id then eraseEntry rest id else p :: eraseEntry rest id

/-- The pop loop of `SessionMap::ShortClean` (session_map.cc 264-288):
while the budget lasts, the heap is non-empty and the top is expired, pop
and erase the map entry exactly when its expiry equals the popped expiry
(the staleness check). -/
def shortCleanLoop (now : Nat) :
    Nat → List (String × SessionContextEntry) → List SessionKeyHeapEntry →
    List (String × SessionContextEntry) × List SessionKeyHeapEntry
  | 0, m, pq => (m, pq)
  | fuel + 1, m, pq =>
    if heapIsEmpty pq then (m, pq)
    else if (heapTop pq).expiry ≤ now then
      shortCleanLoop now fuel
        (match lookupEntry m (heapPop pq).1.id with
         | some entry =>
           if entry.expiry = (heapPop pq).1.expiry then
             eraseEntry m (heapPop pq).1.id
           else m
         | none => m)
        (heapPop pq).2
    else (m, pq)

namespace SessionMap

/-- `SessionMap::ShortClean`: runs the pop loop with budget
`max_clean_num = 8` only when the heap outgrew twice the map (the
`ShrinkToFit` block only affects capacity, which has no observable
content). -/
def ShortClean (st : SessionMap) (now : Nat) : SessionMap :=
  if 2 * st.map.length < heapGetSize st.pqueue then
    let r := shortCleanLoop now 8 st.map st.pqueue
    { st with map := r.1, pqueue := r.2 }
  else st

/-- The else-branch of `SessionMap::GetSession` (session_map.cc 54-62): a
fresh `Context` is allocated and returned, `map_.emplace` installs it only
when the id is absent, and a heap entry is pushed; the short clean runs
before returning. -/
def GetSessionFreshBranch (st : SessionMap) (sessionid : String) (now : Nat) :
    Nat × SessionMap :=
  let ctx := st.next_ctx
  let newExp := now + max kMinSessionTimeout st.default_timeout
  let st2 : SessionMap :=
    { st with
      map := emplaceEntry st.map sessionid ⟨ctx, newExp⟩
      pqueue := heapPush st.pqueue ⟨sessionid, newExp⟩
      next_ctx := st.next_ctx + 1 }
  (ctx, st2.ShortClean now)

/-- `SessionMap::GetSession` (session_map.cc 33-67): when the id is present
and live the stored `Context` is returned and the expiry is extended to
`max(existing, now + default timeout)`, with a heap entry pushed only when
it changed; otherwise the fresh branch runs. -/
def GetSession (st : SessionMap) (sessionid : String) (now : Nat) :
    Nat × SessionMap :=
  match lookupEntry st.map sessionid with
  | some e =>
    if now < e.expiry then
      let newExp := max (now + st.default_timeout) e.expiry
      let pq :=
        if newExp ≠ e.expiry then heapPush st.pqueue ⟨sessionid, newExp⟩
        else st.pqueue
      let st2 : SessionMap :=
        { st with map := setEntryExpiry st.map sessionid newExp, pqueue := pq }
      (e.ctx, st2.ShortClean now)
    else st.GetSessionFreshBranch sessionid now
  | none => st.GetSessionFreshBranch sessionid now

/-- `SessionMap::RemoveSession` (session_map.cc 105-124). -/
def RemoveSession (st : SessionMap) (sessionid : String) :
    Bool × SessionMap :=
  match lookupEntry st.map sessionid with
  | some _ => (true, { st with map := eraseEntry st.map sessionid })
  | none => (false, st)

end SessionMap

/-! ## Theorems settling the claims -/

/-- C9: For every pair of callables `(f1, f2)`, the paired pre/post
convenience adapter `FunctionRequestAspectHandler(f1, f2)` invokes `f1`
from its `PreService` slot and `f2` from its `PostService` slot.  This
holds for the canonical header
(src/include/bsrvcore/http_request_aspect_handler.h), but the duplicate
copy of the header bundled in src/unnamed/part_006 invokes `f1` from both
slots: with `f1 = (· + 1)` and `f2 = (· + 2)` its `PostService` yields the
pre-callable's result `1` instead of `2`. -/
theorem claim9_paired_adapter_slots :
    (∀ (σ : Type) (f1 f2 : σ → σ) (task : σ),
      (FunctionRequestAspectHandler.mk f1 f2).PreService task = f1 task ∧
      (FunctionRequestAspectHandler.mk f1 f2).PostService task = f2 task) ∧
    (FunctionRequestAspectHandlerDup.mk
        (fun n : Nat => n + 1) (fun n : Nat => n + 2)).PreService 0 = 1 ∧
    (FunctionRequestAspectHandlerDup.mk
        (fun n : Nat => n + 1) (fun n : Nat => n + 2)).PostService 0 = 1 ∧
    (1 : Nat) ≠ 2 :=
  ⟨fun _ _ _ _ => ⟨rfl, rfl⟩, rfl, rfl, by decide⟩

/-- C6: The Set-Cookie serialization.  At the inputs of the repository's
own unit test (`ServerSetCookieTest.BuildsCookieWithAttributes`, which
expects to find `"sid=abc"`), `ToString` produces the name concatenated
with the value without the `=` separator, so the serialized string does
not begin with `name=value`; the attribute order and the forced `Secure`
for `SameSite=None` are as documented. -/
theorem claim6_set_cookie_no_separator :
    ((({} : ServerSetCookie).SetName "sid").SetValue "abc").ToString
      = "sidabc" ∧
    (((({} : ServerSetCookie).SetName "sid").SetValue
      "abc").ToString).data.take 4 ≠ "sid=".data ∧
    (((((((({} : ServerSetCookie).SetName "sid").SetValue
        "abc").SetPath "/").SetDomain "example.com").SetMaxAge
        3600).SetSameSite SameSite.kNone).SetHttpOnly true).ToString
      = "sidabc; Path=/; Domain=example.com; Max-Age=3600; SameSite=None; Secure; HttpOnly" := by
  refine ⟨by decide, by decide, by decide⟩

/-- C2: While the server is Running, every configuration mutation is a
silent no-op that leaves the server (route table and configuration
defaults included) unchanged, and after `Stop()` the same mutation takes
effect: `SetDefaultHandler(H)` after `Stop` makes `Route` return `H` (here
on the default path, which returns the configured default handler). -/
theorem claim2_running_gate (s : HttpServer) (h : s.is_running = true) :
    (∀ m url hdl, s.AddRouteEntry m url hdl = s) ∧
    (∀ m url hdl, s.AddExclusiveRouteEntry m url hdl = s) ∧
    (∀ m url a, s.AddAspect m url a = s) ∧
    (∀ m a, s.AddGlobalAspectForMethod m a = s) ∧
    (∀ a, s.AddGlobalAspect a = s) ∧
    (∀ ep, s.AddListen ep = s) ∧
    (∀ m url v, s.SetReadExpiry m url v = s) ∧
    (∀ v, s.SetHeaderReadExpiry v = s) ∧
    (∀ m url v, s.SetWriteExpiry m url v = s) ∧
    (∀ m url v, s.SetMaxBodySize m url v = s) ∧
    (∀ v, s.SetDefaultReadExpiry v = s) ∧
    (∀ v, s.SetDefaultWriteExpiry v = s) ∧
    (∀ v, s.SetDefaultMaxBodySize v = s) ∧
    (∀ v, s.SetKeepAliveTimeout v = s) ∧
    (∀ hdl, s.SetDefaultHandler hdl = s) ∧
    (∀ ctx, s.SetSslContext ctx = s) ∧
    (s.UnsetSslContext = s) ∧
    (∀ lg, s.SetLogger lg = s) ∧
    (∀ hdl m p, (s.SetDefaultHandler hdl).Route m p = s.Route m p) ∧
    (∀ hdl m, ((s.Stop.SetDefaultHandler hdl).Route m none).handler = hdl) := by
  refine ⟨?_, ?_, ?_, ?_, ?_, ?_, ?_, ?_, ?_, ?_, ?_, ?_, ?_, ?_, ?_, ?_,
    ?_, ?_, ?_, ?_⟩
  · intro m url hdl; simp [HttpServer.AddRouteEntry, h]
  · intro m url hdl; simp [HttpServer.AddExclusiveRouteEntry, h]
  · intro m url a; simp [HttpServer.AddAspect, h]
  · intro m a; simp [HttpServer.AddGlobalAspectForMethod, h]
  · intro a; simp [HttpServer.AddGlobalAspect, h]
  · intro ep; simp [HttpServer.AddListen, h]
  · intro m url v; simp [HttpServer.SetReadExpiry, h]
  · intro v; simp [HttpServer.SetHeaderReadExpiry, h]
  · intro m url v; simp [HttpServer.SetWriteExpiry, h]
  · intro m url v; simp [HttpServer.SetMaxBodySize, h]
  · intro v; simp [HttpServer.SetDefaultReadExpiry, h]
  · intro v; simp [HttpServer.SetDefaultWriteExpiry, h]
  · intro v; simp [HttpServer.SetDefaultMaxBodySize, h]
  · intro v; simp [HttpServer.SetKeepAliveTimeout, h]
  · intro hdl; simp [HttpServer.SetDefaultHandler, h]
  · intro ctx; simp [HttpServer.SetSslContext, h]
  · simp [HttpServer.UnsetSslContext, h]
  · intro lg; simp [HttpServer.SetLogger, h]
  · intro hdl m p; simp [HttpServer.SetDefaultHandler, h]
  · intro hdl m
    simp only [HttpServer.Stop, h, Bool.not_eq_true, ite_false,
      HttpServer.SetDefaultHandler, HttpServer.Route, if_neg]
    simp only [HttpRouteTable.Route, HttpRouteTable.SetDefaultHandler,
      HttpRouteTable.BuildDefaultRouteResult]
    split <;> rfl

/-- Concrete server used to witness C2. -/
def c2Server : HttpServer where
  is_running := true
  route_table := initialHttpRouteTable
  keep_alive_timeout := 0
  header_read_expiry := 0
  logger := 0
  ssl_ctx := none
  acceptors := []

/-- Witness for C2 at a concrete running server: mutation while Running is
identity, and `SetDefaultHandler 7` after `Stop` makes `Route` return
handler 7. -/
theorem claim2_running_gate_witness :
    c2Server.SetKeepAliveTimeout 5 = c2Server ∧
    c2Server.SetDefaultHandler 7 = c2Server ∧
    ((c2Server.Stop.SetDefaultHandler 7).Route HttpRequestMethod.kGet
      none).handler = 7 := by
  obtain ⟨h1, h2, h3, h4, h5, h6, h7, h8, h9, h10, h11, h12, h13, h14, h15,
    h16, h17, h18, h19, h20⟩ := claim2_running_gate c2Server rfl
  exact ⟨h14 5, h15 7, h20 7 HttpRequestMethod.kGet⟩

/-- C8: For every method and every template that is invalid — empty, not
starting with `/`, longer than 2048 characters, with unbalanced braces, or
whose non-parametric projection contains `..` — `AddRouteEntry` returns
`false` and the route table is unchanged. -/
theorem claim8_invalid_template_no_state_change (t : HttpRouteTable)
    (m : HttpRequestMethod) (hdl : HandlerRef) (s : String)
    (hbad : s.data = [] ∨ s.data.head? ≠ some '/' ∨ 2048 < s.data.length
      ∨ braceScan s.data 0 = false
      ∨ hasDotDot (nonParamProjection s.data false) = true) :
    t.AddRouteEntry m s hdl = (false, t) := by
  have hval : IsValidParametricTarget s = false := by
    unfold IsValidParametricTarget
    split
    · rfl
    · split
      · rfl
      · split
        · rfl
        · split
          · rfl
          · simp_all
            omega
  simp [HttpRouteTable.AddRouteEntry, hval]

/-- Witness for C8: `AddRouteEntry(GET, "abc", handler)` on the fresh table
returns `false` and leaves the table untouched. -/
theorem claim8_invalid_template_witness :
    initialHttpRouteTable.AddRouteEntry HttpRequestMethod.kGet "abc" 7
      = (false, initialHttpRouteTable) :=
  claim8_invalid_template_no_state_change initialHttpRouteTable
    HttpRequestMethod.kGet 7 "abc" (Or.inr (Or.inl (by decide)))

/-- C10: For every method and target that cannot be parsed as a URI
reference (`parsed = none`), `Route` totally returns the default route
result — template `/`, no parameters, global aspects only, the configured
default handler, default limits — which is also the result when the method
has no trie or when matching fails. -/
theorem claim10_unparseable_target_defaults (t : HttpRouteTable)
    (m : HttpRequestMethod) :
    t.Route m none = t.BuildDefaultRouteResult ∧
    (t.entrance m = none → ∀ p, t.Route m p = t.BuildDefaultRouteResult) ∧
    (∀ l segs, t.entrance m = some l → MatchSegments l segs "" [] = none →
      t.Route m (some segs) = t.BuildDefaultRouteResult) ∧
    t.BuildDefaultRouteResult =
      { current_location := "/"
        parameters := []
        aspects := t.global_aspects
        handler := t.default_handler
        max_body_size := t.default_max_body_size
        read_expiry := t.default_read_expiry
        write_expiry := t.default_write_expiry } := by
  refine ⟨?_, ?_, ?_, rfl⟩
  · unfold HttpRouteTable.Route
    cases t.entrance m <;> rfl
  · intro h p
    simp only [HttpRouteTable.Route, h]
  · intro l segs h hm
    simp only [HttpRouteTable.Route, h, hm]

/-- One `MatchSegments` step over an empty segment: only the `/` is
appended. -/
theorem matchSegments_empty_step (l : HttpRouteTableLayer)
    (rest : List String) (loc : String) (params : List String) :
    MatchSegments l ("" :: rest) loc params
      = MatchSegments l rest (loc ++ "/") params := by
  simp [MatchSegments]

/-- One `MatchSegments` step through a matching literal child. -/
theorem matchSegments_lit_step {l next : HttpRouteTableLayer} {s : String}
    (hs : s ≠ "") (hr : l.GetRoute s = some next) (rest : List String)
    (loc : String) (params : List String) :
    MatchSegments l (s :: rest) loc params
      = MatchSegments next rest (loc ++ "/" ++ s) params := by
  simp [MatchSegments, hs, hr]

/-- One `MatchSegments` step through the default (parametric) child. -/
theorem matchSegments_dflt_step {l next : HttpRouteTableLayer} {s : String}
    (hs : s ≠ "") (hr : l.GetRoute s = none)
    (hx : l.GetIgnoreDefaultRoute = false) (hd : l.GetDefaultRoute = some next)
    (rest : List String) (loc : String) (params : List String) :
    MatchSegments l (s :: rest) loc params
      = MatchSegments next rest (loc ++ "/" ++ s) (params ++ [s]) := by
  simp [MatchSegments, hs, hr, hx, hd]

/-- The exclusive `break`: at a layer with the exclusive flag whose literal
children do not match the next segment, matching terminates at that layer
regardless of the remaining segments. -/
theorem matchSegments_exclusive_step {l : HttpRouteTableLayer} {s : String}
    (hs : s ≠ "") (hr : l.GetRoute s = none)
    (hx : l.GetIgnoreDefaultRoute = true) (rest : List String) (loc : String)
    (params : List String) :
    MatchSegments l (s :: rest) loc params = some (loc ++ "/", params, l) := by
  simp [MatchSegments, hs, hr, hx]

/-- Specification predicate for C1: pure trie descent along path segments,
as `MatchSegments` performs it when every step either skips an empty
segment, follows a matching literal child, or (exclusive flag off) follows
the default child. -/
inductive ReachesLayer :
    HttpRouteTableLayer → List String → HttpRouteTableLayer → Prop where
  | nil (l : HttpRouteTableLayer) : ReachesLayer l [] l
  | empt {l final : HttpRouteTableLayer} {rest : List String} :
      ReachesLayer l rest final → ReachesLayer l ("" :: rest) final
  | lit {l next final : HttpRouteTableLayer} {s : String} {rest : List String}
      (hs : s ≠ "") (hr : l.GetRoute s = some next)
      (h : ReachesLayer next rest final) : ReachesLayer l (s :: rest) final
  | dflt {l next final : HttpRouteTableLayer} {s : String} {rest : List String}
      (hs : s ≠ "") (hr : l.GetRoute s = none)
      (hx : l.GetIgnoreDefaultRoute = false)
      (hd : l.GetDefaultRoute = some next)
      (h : ReachesLayer next rest final) : ReachesLayer l (s :: rest) final

/-- Descent decomposition: matching `p ++ tail` from `l` performs the pure
descent of `p` to the reached layer and continues matching `tail` there
(with some accumulated location and parameters). -/
theorem matchSegments_append_of_reaches {l E : HttpRouteTableLayer}
    {p : List String} (h : ReachesLayer l p E) :
    ∀ (tail : List String) (loc : String) (params : List String),
      ∃ loc2 params2,
        MatchSegments l (p ++ tail) loc params
          = MatchSegments E tail loc2 params2 := by
  induction h with
  | nil l => exact fun tail loc params => ⟨loc, params, rfl⟩
  | empt _ ih =>
    intro tail loc params
    obtain ⟨loc2, params2, hh⟩ := ih tail (loc ++ "/") params
    exact ⟨loc2, params2, by rw [List.cons_append, matchSegments_empty_step, hh]⟩
  | lit hs hr _ ih =>
    intro tail loc params
    obtain ⟨loc2, params2, hh⟩ := ih tail (loc ++ "/" ++ _) params
    exact ⟨loc2, params2, by rw [List.cons_append, matchSegments_lit_step hs hr, hh]⟩
  | dflt hs hr hx hd _ ih =>
    intro tail loc params
    obtain ⟨loc2, params2, hh⟩ := ih tail (loc ++ "/" ++ _) (params ++ [_])
    exact ⟨loc2, params2,
      by rw [List.cons_append, matchSegments_dflt_step hs hr hx hd, hh]⟩

/-- C1 (amended): if an exclusive handler is registered at a layer `E`
reached by descending `p`, then for every deeper target whose next segment
is **not a literal child of `E`**, `Route` terminates matching at `E` and
returns its handler regardless of the remaining segments.  (The original
claim fails without the literal-child proviso: `MatchSegments` prefers a
matching literal child and only then consults the exclusive flag, which
merely forbids descent into the parametric default child.) -/
theorem claim1_amended_exclusive_terminates (t : HttpRouteTable)
    (m : HttpRequestMethod) (l0 E : HttpRouteTableLayer) (p : List String)
    (h : HandlerRef) (s : String) (rest : List String)
    (he : t.entrance m = some l0) (hp : ReachesLayer l0 p E)
    (hx : E.GetIgnoreDefaultRoute = true) (hh : E.GetHandler = some h)
    (hnl : E.GetRoute s = none) (hs : s ≠ "") :
    (t.Route m (some (p ++ s :: rest))).handler = h := by
  obtain ⟨loc2, params2, hm⟩ :=
    matchSegments_append_of_reaches hp (s :: rest) "" []
  rw [matchSegments_exclusive_step hs hnl hx rest loc2 params2] at hm
  simp only [HttpRouteTable.Route, he, hm, hh]

/-- Route table refuting C1 as stated: an exclusive handler 1 at `/a` and
a plain handler 2 at the literal child `/a/b`. -/
def c1Table : HttpRouteTable :=
  ((initialHttpRouteTable.AddExclusiveRouteEntry HttpRequestMethod.kGet
    "/a" 1).2.AddRouteEntry HttpRequestMethod.kGet "/a/b" 2).2

/-- Counterexample to C1 as stated: the target `/a/b` begins with the
exclusive prefix `/a`, yet `Route` does not terminate at the exclusive
layer — the literal child `b` is preferred and handler 2 ≠ 1 is
returned. -/
theorem claim1_counterexample_literal_child_descends :
    (c1Table.Route HttpRequestMethod.kGet (some ["a", "b"])).handler = 2 ∧
    (2 : HandlerRef) ≠ 1 :=
  ⟨by rfl, by decide⟩

/-- Route table witnessing the amended C1 (the spec's own scenario 4):
exclusive GET `/static` (handler 5) and parametric GET `/static/{file}`
(handler 6). -/
def c1wTable : HttpRouteTable :=
  ((initialHttpRouteTable.AddExclusiveRouteEntry HttpRequestMethod.kGet
    "/static" 5).2.AddRouteEntry HttpRequestMethod.kGet
    "/static/\x7bfile\x7d" 6).2

/-- The GET entrance layer of `c1wTable`. -/
def c1wRoot : HttpRouteTableLayer :=
  (c1wTable.entrance HttpRequestMethod.kGet).getD emptyLayer

/-- The `/static` layer of `c1wTable`. -/
def c1wStatic : HttpRouteTableLayer :=
  (c1wRoot.GetRoute "static").getD emptyLayer

/-- Witness for the amended C1: `GET /static/abc` is served by the
exclusive handler 5, not the parametric sibling. -/
theorem claim1_amended_exclusive_witness :
    (c1wTable.Route HttpRequestMethod.kGet (some (["static"] ++ "abc" :: []))).handler
      = 5 :=
  claim1_amended_exclusive_terminates c1wTable HttpRequestMethod.kGet c1wRoot
    c1wStatic ["static"] 5 "abc" [] (by rfl)
    (ReachesLayer.lit (by decide) (by rfl) (ReachesLayer.nil c1wStatic))
    (by rfl) (by rfl) (by rfl) (by decide)

/-- The post pass starting at index `i` emits the first `i + 1` aspects'
`PostService` events in reverse order. -/
theorem doPostService_spec (aspects : List AspectRef) (i : Nat)
    (hi : i < aspects.length) :
    DoPostService aspects i
      = ((aspects.take (i + 1)).reverse).map TaskEvent.post := by
  induction i with
  | zero =>
    rw [DoPostService, dif_neg (by omega), dif_neg (by omega)]
    simp [List.take_succ, List.getElem?_eq_getElem hi, List.get_eq_getElem]
  | succ n ih =>
    rw [DoPostService, dif_neg (by omega), dif_pos (by omega)]
    simp only [Nat.add_sub_cancel]
    rw [ih (by omega)]
    have ht : aspects.take (n + 1 + 1) = aspects.take (n + 1) ++ [aspects[n + 1]] := by
      rw [List.take_succ, List.getElem?_eq_getElem hi]
      rfl
    rw [ht]
    simp only [List.reverse_append, List.reverse_singleton,
      List.singleton_append, List.map_cons, List.get_eq_getElem]

/-- The pre pass starting at index `i` emits the remaining aspects'
`PreService` events and then runs `DoService`. -/
theorem doPreService_spec (aspects : List AspectRef) (hdl : HandlerRef)
    (i : Nat) (hi : i ≤ aspects.length) :
    DoPreService aspects hdl i
      = ((aspects.drop i).map TaskEvent.pre) ++ DoService aspects hdl := by
  have key : ∀ (n j : Nat), j ≤ aspects.length → aspects.length - j = n →
      DoPreService aspects hdl j
        = ((aspects.drop j).map TaskEvent.pre) ++ DoService aspects hdl := by
    intro n
    induction n with
    | zero =>
      intro j _ hn
      have hj : j = aspects.length := by omega
      rw [DoPreService, dif_neg (by omega), dif_pos hj]
      simp [hj]
    | succ n ih =>
      intro j _ hn
      have hlt : j < aspects.length := by omega
      rw [DoPreService, dif_neg (by omega), dif_neg (by omega)]
      rw [ih (j + 1) (by omega) (by omega)]
      have hd : aspects.drop j = aspects[j] :: aspects.drop (j + 1) :=
        List.drop_eq_getElem_cons hlt
      rw [hd]
      simp only [List.map_cons, List.cons_append, List.get_eq_getElem]
  exact key (aspects.length - i) i hi rfl

/-- C3: For every routed request with handler `H` and matched aspect list
`A1..An`, the aspect list in the `RouteResult` is the concatenation of the
global aspects, the method-global aspects and the route-local aspects,
each in insertion order, and the observable invocation order on the Task
is `A1.PreService, …, An.PreService, H.Service, An.PostService, …,
A1.PostService`. -/
theorem claim3_aspect_concatenation_and_order :
    (∀ (t : HttpRouteTable) (lay : HttpRouteTableLayer)
        (m : HttpRequestMethod),
      t.CollectAspects lay m
        = t.global_aspects ++ t.global_specific_aspects m ++ lay.GetAspects) ∧
    (∀ (t : HttpRouteTable) (m : HttpRequestMethod)
        (l0 lay : HttpRouteTableLayer) (segs : List String) (loc : String)
        (params : List String) (h : HandlerRef),
      t.entrance m = some l0 →
      MatchSegments l0 segs "" [] = some (loc, params, lay) →
      lay.GetHandler = some h →
      (t.Route m (some segs)).aspects = t.CollectAspects lay m) ∧
    (∀ (aspects : List AspectRef) (hdl : HandlerRef),
      TaskTrace aspects hdl
        = aspects.map TaskEvent.pre
            ++ TaskEvent.service hdl :: (aspects.reverse.map TaskEvent.post)) := by
  refine ⟨fun _ _ _ => rfl, ?_, ?_⟩
  · intro t m l0 lay segs loc params h he hm hh
    simp only [HttpRouteTable.Route, he, hm, hh]
  · intro aspects hdl
    unfold TaskTrace
    rw [doPreService_spec aspects hdl 0 (by omega)]
    unfold DoService
    cases aspects with
    | nil => simp
    | cons a as =>
      rw [doPostService_spec _ _ (by simp)]
      simp

/-- The route table used to witness C3: one global aspect (10), one
method-global GET aspect (11), one route-local aspect at `/a` (12), and a
handler (7) at `/a`. -/
def c3Table : HttpRouteTable :=
  ((((initialHttpRouteTable.AddGlobalAspect 10).2.AddGlobalAspectForMethod
      HttpRequestMethod.kGet 11).2.AddAspect HttpRequestMethod.kGet "/a"
      12).2.AddRouteEntry HttpRequestMethod.kGet "/a" 7).2

/-- The GET entrance layer of `c3Table`. -/
def c3Root : HttpRouteTableLayer :=
  (c3Table.entrance HttpRequestMethod.kGet).getD emptyLayer

/-- The `/a` layer of `c3Table`. -/
def c3LayA : HttpRouteTableLayer := (c3Root.GetRoute "a").getD emptyLayer

/-- Witness for C3: routing `GET /a` yields the aspect list
`[10, 11, 12]` (global, method-global, route-local) and the task trace is
the pre pass, the handler, and the reversed post pass. -/
theorem claim3_aspect_order_witness :
    (c3Table.Route HttpRequestMethod.kGet (some ["a"])).aspects
      = [10, 11, 12] ∧
    TaskTrace [10, 11, 12] 7
      = [TaskEvent.pre 10, TaskEvent.pre 11, TaskEvent.pre 12,
         TaskEvent.service 7, TaskEvent.post 12, TaskEvent.post 11,
         TaskEvent.post 10] := by
  constructor
  · rw [claim3_aspect_concatenation_and_order.2.1 c3Table
      HttpRequestMethod.kGet c3Root c3LayA ["a"] "/a" [] 7 (by rfl) (by rfl)
      (by rfl)]
    rfl
  · rw [claim3_aspect_concatenation_and_order.2.2 [10, 11, 12] 7]
    rfl

/-- Specification predicate for C5: the target segments `ss` match the
template segments `ts` (the `/`-split of the template, in which empty
pieces are skipped at registration): positionally, a parametric piece
(starting with `{`) matches any non-empty raw segment, a literal piece
matches only itself. -/
def SegsMatchTemplate : List String → List String → Bool
  | [], [] => true
  | [], _ :: _ => false
  | t :: ts, ss =>
    if t = "" then SegsMatchTemplate ts ss
    else
      match ss with
      | [] => false
      | s :: ss2 =>
        s ≠ "" && (t.front = leftBrace || s == t) && SegsMatchTemplate ts ss2

/-- Specification function for C5: the raw target segments captured by the
parametric pieces of the template, left to right. -/
def CapturedParams : List String → List String → List String
  | [], _ => []
  | t :: ts, ss =>
    if t = "" then CapturedParams ts ss
    else
      match ss with
      | [] => []
      | s :: ss2 =>
        if t.front = leftBrace then s :: CapturedParams ts ss2
        else CapturedParams ts ss2

/-- Matching a freshly built registration chain: descending the chain that
`GetOrCreateApply` builds from the empty layer for template pieces `ts`
with matching target segments `ss` consumes everything, appends `/` plus
the raw segment text per consumed segment to the location, captures
exactly the parametric segments, and ends at the layer the registration
modifier `f` produced. -/
theorem matchSegments_buildChain (ts : List String) :
    ∀ (ss : List String) (f : HttpRouteTableLayer → HttpRouteTableLayer),
      SegsMatchTemplate ts ss = true →
      ∀ (loc : String) (params : List String),
        MatchSegments (GetOrCreateApply emptyLayer ts f) ss loc params
          = some (ss.foldl (fun a s => a ++ "/" ++ s) loc,
              params ++ CapturedParams ts ss, f emptyLayer) := by
  induction ts with
  | nil =>
    intro ss f hmatch loc params
    cases ss with
    | nil => simp [MatchSegments, GetOrCreateApply, CapturedParams]
    | cons s ss2 => simp [SegsMatchTemplate] at hmatch
  | cons t ts ih =>
    intro ss f hmatch loc params
    by_cases ht : t = ""
    · subst ht
      rw [show GetOrCreateApply emptyLayer ("" :: ts) f
            = GetOrCreateApply emptyLayer ts f from by
          simp [GetOrCreateApply]]
      rw [show CapturedParams ("" :: ts) ss = CapturedParams ts ss from by
        simp [CapturedParams]]
      exact ih ss f (by simpa [SegsMatchTemplate] using hmatch) loc params
    · cases ss with
      | nil => simp [SegsMatchTemplate, ht] at hmatch
      | cons s ss2 =>
        rw [SegsMatchTemplate] at hmatch
        rw [if_neg ht] at hmatch
        simp only [Bool.and_eq_true, Bool.or_eq_true, decide_eq_true_eq,
          beq_iff_eq] at hmatch
        obtain ⟨⟨hs, hts⟩, hrest⟩ := hmatch
        by_cases hp : t.front = leftBrace
        · have hbuild : GetOrCreateApply emptyLayer (t :: ts) f
              = emptyLayer.SetDefaultRoute (GetOrCreateApply emptyLayer ts f) := by
            rw [GetOrCreateApply]
            rw [if_neg ht, if_pos hp]
            rfl
          rw [hbuild]
          rw [matchSegments_dflt_step hs (by rfl) (by rfl) (by rfl) ss2 loc params]
          rw [ih ss2 f hrest (loc ++ "/" ++ s) (params ++ [s])]
          rw [show CapturedParams (t :: ts) (s :: ss2)
                = s :: CapturedParams ts ss2 from by
            rw [CapturedParams]; rw [if_neg ht]; simp [hp]]
          simp only [List.foldl_cons, List.append_assoc, List.singleton_append]
        · have hlit : s = t := by
            rcases hts with h1 | h1
            · exact absurd h1 hp
            · exact h1
          have hbuild : GetOrCreateApply emptyLayer (t :: ts) f
              = emptyLayer.SetRoute t (GetOrCreateApply emptyLayer ts f) := by
            rw [GetOrCreateApply]
            rw [if_neg ht, if_neg hp]
            rfl
          rw [hbuild]
          have hroute : (emptyLayer.SetRoute t
              (GetOrCreateApply emptyLayer ts f)).GetRoute s
              = some (GetOrCreateApply emptyLayer ts f) := by
            simp [HttpRouteTableLayer.SetRoute, HttpRouteTableLayer.GetRoute,
              HttpRouteTableLayer.children, emptyLayer,
              HttpRouteTableLayer.emptyLayer, List.find?, hlit]
          rw [matchSegments_lit_step hs hroute ss2 loc params]
          rw [ih ss2 f hrest (loc ++ "/" ++ s) params]
          rw [show CapturedParams (t :: ts) (s :: ss2)
                = CapturedParams ts ss2 from by
            rw [CapturedParams]; rw [if_neg ht]; simp [hp]]
          rfl

/-- C5: For every valid template registered into a fresh table and every
target whose segments match it, `Route` returns the registered handler,
the parameter list equal to the raw text of the segments captured by the
parametric pieces in left-to-right order, and a matched-template string
built by appending `/` then the raw segment text for every consumed
segment. -/
theorem claim5_parametric_route (tpl : String) (hdl : HandlerRef)
    (m : HttpRequestMethod) (ss : List String)
    (hvalid : IsValidParametricTarget tpl = true)
    (hmatch : SegsMatchTemplate (splitTarget tpl) ss = true) :
    ((initialHttpRouteTable.AddRouteEntry m tpl hdl).2.Route m
      (some ss)).handler = hdl ∧
    ((initialHttpRouteTable.AddRouteEntry m tpl hdl).2.Route m
      (some ss)).parameters = CapturedParams (splitTarget tpl) ss ∧
    ((initialHttpRouteTable.AddRouteEntry m tpl hdl).2.Route m
      (some ss)).current_location
      = ss.foldl (fun a s => a ++ "/" ++ s) "" := by
  have hidx : ¬ (kHttpRequestMethodNum < methodIdx m) := by
    cases m <;> decide
  have hent : (initialHttpRouteTable.AddRouteEntry m tpl hdl).2.entrance m
      = some (GetOrCreateApply emptyLayer (splitTarget tpl)
          (fun lay => lay.SetHandler hdl)) := by
    simp [HttpRouteTable.AddRouteEntry, hvalid, hidx, initialHttpRouteTable,
      HttpRouteTable.setEntrance]
  have hms := matchSegments_buildChain (splitTarget tpl) ss
    (fun lay => lay.SetHandler hdl) hmatch "" []
  refine ⟨?_, ?_, ?_⟩ <;>
    · simp only [HttpRouteTable.Route, hent, hms]
      rfl

/-- Witness for C5 (the spec's scenario 3): registering GET `/users/{id}`
and routing `GET /users/123` yields that handler, parameter list
`["123"]`, and matched template `"/users/123"`. -/
theorem claim5_parametric_route_witness :
    ((initialHttpRouteTable.AddRouteEntry HttpRequestMethod.kGet
      "/users/\x7bid\x7d" 9).2.Route HttpRequestMethod.kGet
      (some ["users", "123"])).handler = 9 ∧
    ((initialHttpRouteTable.AddRouteEntry HttpRequestMethod.kGet
      "/users/\x7bid\x7d" 9).2.Route HttpRequestMethod.kGet
      (some ["users", "123"])).parameters = ["123"] ∧
    ((initialHttpRouteTable.AddRouteEntry HttpRequestMethod.kGet
      "/users/\x7bid\x7d" 9).2.Route HttpRequestMethod.kGet
      (some ["users", "123"])).current_location = "/users/123" := by
  have h := claim5_parametric_route "/users/\x7bid\x7d" 9
    HttpRequestMethod.kGet ["users", "123"] (by decide) (by decide)
  exact ⟨h.1, h.2.1.trans (by decide), h.2.2.trans (by decide)⟩

/-- Task state for C4: a request with no `Cookie` header. -/
def c4NoCookieTask : HttpServerTaskState := initTask ""

/-- C4 state after the handler's first `GetSessionId` call (generated id
`u123`). -/
def c4Once : HttpServerTaskState := (GetSessionId "u123" c4NoCookieTask).2

/-- C4 state after a second `GetSessionId` call. -/
def c4Twice : HttpServerTaskState := (GetSessionId "u456" c4Once).2

/-- Task state for C4's reuse case: a `sessionId` cookie is present. -/
def c4WithCookieTask : HttpServerTaskState :=
  initTask "a=1; sessionId=abc; b=2"

/-- C4: For a request with no `sessionId` cookie whose handler calls
`GetSessionId`, finalization on the non-manual path appends exactly one
`Set-Cookie` header; a second `GetSessionId` call does not add another,
and with a `sessionId` cookie present its value is returned and no header
is added.  However, the single header's value is the cookie name
concatenated with the generated id **without** the `=` separator
(`sessionIdu123`, not `sessionId=u123`), because
`ServerSetCookie::ToString` omits it. -/
theorem claim4_session_cookie_writeback :
    (GetSessionId "u123" c4NoCookieTask).1 = "u123" ∧
    FinalizeTask c4Once = [("Set-Cookie", "sessionIdu123")] ∧
    countSetCookie (FinalizeTask c4Once) = 1 ∧
    (GetSessionId "u456" c4Once).1 = "u123" ∧
    FinalizeTask c4Twice = [("Set-Cookie", "sessionIdu123")] ∧
    countSetCookie (FinalizeTask c4Twice) = 1 ∧
    (GetSessionId "u789" c4WithCookieTask).1 = "abc" ∧
    countSetCookie (FinalizeTask (GetSessionId "u789" c4WithCookieTask).2) = 0 ∧
    "sessionIdu123".data.take 10 ≠ "sessionId=".data := by
  refine ⟨?_, ?_, ?_, ?_, ?_, ?_, ?_, ?_, ?_⟩ <;> decide

/-- `lookupEntry` after erasing a different key. -/
theorem lookupEntry_erase_ne (m : List (String × SessionContextEntry))
    (kid id : String) (h : kid ≠ id) :
    lookupEntry (eraseEntry m kid) id = lookupEntry m id := by
  induction m with
  | nil => rfl
  | cons p rest ih =>
    rw [eraseEntry]
    by_cases h1 : p.1 = kid
    · rw [if_pos h1, ih, lookupEntry,
        if_neg (fun h2 => h (h1.symm.trans h2))]
    · rw [if_neg h1, lookupEntry, lookupEntry]
      by_cases h2 : p.1 = id
      · rw [if_pos h2, if_pos h2]
      · rw [if_neg h2, if_neg h2, ih]

/-- `lookupEntry` after erasing the same key: gone. -/
theorem lookupEntry_erase_self (m : List (String × SessionContextEntry))
    (id : String) : lookupEntry (eraseEntry m id) id = none := by
  induction m with
  | nil => rfl
  | cons p rest ih =>
    rw [eraseEntry]
    by_cases h1 : p.1 = id
    · rw [if_pos h1]; exact ih
    · rw [if_neg h1, lookupEntry, if_neg h1]; exact ih

/-- `lookupEntry` after an expiry update of the same key. -/
theorem lookupEntry_setExpiry (m : List (String × SessionContextEntry))
    (id : String) (e : SessionContextEntry) (x : Nat)
    (h : lookupEntry m id = some e) :
    lookupEntry (setEntryExpiry m id x) id = some ⟨e.ctx, x⟩ := by
  induction m with
  | nil => exact absurd h (by rw [lookupEntry]; exact Option.noConfusion)
  | cons p rest ih =>
    rw [lookupEntry] at h
    rw [setEntryExpiry]
    by_cases h1 : p.1 = id
    · rw [if_pos h1] at h
      rw [if_pos h1, lookupEntry, if_pos h1, Option.some_inj.mp h]
    · rw [if_neg h1] at h
      rw [if_neg h1, lookupEntry, if_neg h1]
      exact ih h

/-- `emplaceEntry` on an absent key installs it. -/
theorem lookupEntry_emplace_absent (m : List (String × SessionContextEntry))
    (id : String) (v : SessionContextEntry)
    (h : lookupEntry m id = none) :
    lookupEntry (emplaceEntry m id v) id = some v := by
  rw [emplaceEntry, h]
  simp only [Option.isSome_none, Bool.false_eq_true, if_false]
  induction m with
  | nil => rw [List.nil_append, lookupEntry, if_pos rfl]
  | cons p rest ih =>
    rw [lookupEntry] at h
    by_cases h1 : p.1 = id
    · rw [if_pos h1] at h; exact Option.noConfusion h
    · rw [if_neg h1] at h
      rw [List.cons_append, lookupEntry, if_neg h1]
      exact ih h

/-- `emplaceEntry` on a present key is a no-op (the `std::map::emplace`
semantics behind the C7 correction). -/
theorem emplace_present (m : List (String × SessionContextEntry))
    (id : String) (v e : SessionContextEntry)
    (h : lookupEntry m id = some e) :
    emplaceEntry m id v = m := by
  rw [emplaceEntry, h]
  rfl

/-- The first component of `heapPop` is the heap top. -/
theorem heapPop_fst (c : List SessionKeyHeapEntry) :
    (heapPop c).1 = heapTop c := by
  simp only [heapPop, heapTop]
  split <;> rfl

/-- The short-clean pop loop never erases an entry that is still live at
`now` (erasure requires the popped expiry, which is `≤ now`, to equal the
entry's). -/
theorem shortCleanLoop_preserves_live (now : Nat) (fuel : Nat) :
    ∀ (m : List (String × SessionContextEntry))
      (pq : List SessionKeyHeapEntry) (id : String)
      (e : SessionContextEntry),
      lookupEntry m id = some e → now < e.expiry →
      lookupEntry (shortCleanLoop now fuel m pq).1 id = some e := by
  induction fuel with
  | zero => intro m pq id e h _; exact h
  | succ n ih =>
    intro m pq id e h hlive
    rw [shortCleanLoop]
    split
    · exact h
    · split
      · rename_i hempty htop
        refine ih _ _ id e ?_ hlive
        have hkexp : (heapPop pq).1.expiry ≤ now := by
          rw [heapPop_fst]; exact htop
        cases hlook : lookupEntry m (heapPop pq).1.id with
        | none => simp only [hlook]; exact h
        | some entry =>
          simp only [hlook]
          by_cases heq : entry.expiry = (heapPop pq).1.expiry
          · rw [if_pos heq]
            by_cases hid : (heapPop pq).1.id = id
            · rw [hid] at hlook
              rw [hlook] at h
              cases h
              omega
            · rw [lookupEntry_erase_ne m (heapPop pq).1.id id hid]
              exact h
          · rw [if_neg heq]
            exact h
      · exact h

/-- The short-clean pop loop only erases entries: any surviving binding
was already in the map. -/
theorem shortCleanLoop_subset (now : Nat) (fuel : Nat) :
    ∀ (m : List (String × SessionContextEntry))
      (pq : List SessionKeyHeapEntry) (id : String)
      (e2 : SessionContextEntry),
      lookupEntry (shortCleanLoop now fuel m pq).1 id = some e2 →
      lookupEntry m id = some e2 := by
  induction fuel with
  | zero => intro m pq id e2 h; exact h
  | succ n ih =>
    intro m pq id e2 h
    rw [shortCleanLoop] at h
    split at h
    · exact h
    · split at h
      · have h2 := ih _ _ id e2 h
        cases hlook : lookupEntry m (heapPop pq).1.id with
        | none => simp only [hlook] at h2; exact h2
        | some entry =>
          simp only [hlook] at h2
          by_cases heq : entry.expiry = (heapPop pq).1.expiry
          · rw [if_pos heq] at h2
            by_cases hid : (heapPop pq).1.id = id
            · rw [hid] at h2
              rw [lookupEntry_erase_self] at h2
              cases h2
            · rwa [lookupEntry_erase_ne m (heapPop pq).1.id id hid] at h2
          · rwa [if_neg heq] at h2
      · exact h

/-- `ShortClean` preserves live entries. -/
theorem shortClean_preserves_live (st : SessionMap) (now : Nat) (id : String)
    (e : SessionContextEntry) (h : lookupEntry st.map id = some e)
    (hlive : now < e.expiry) :
    lookupEntry (st.ShortClean now).map id = some e := by
  rw [SessionMap.ShortClean]
  split
  · exact shortCleanLoop_preserves_live now 8 st.map st.pqueue id e h hlive
  · exact h

/-- `ShortClean` only erases entries. -/
theorem shortClean_subset (st : SessionMap) (now : Nat) (id : String)
    (e2 : SessionContextEntry)
    (h : lookupEntry (st.ShortClean now).map id = some e2) :
    lookupEntry st.map id = some e2 := by
  rw [SessionMap.ShortClean] at h
  split at h
  · exact shortCleanLoop_subset now 8 st.map st.pqueue id e2 h
  · exact h

/-- The live branch of `GetSession`: the stored context is returned and
the entry's expiry becomes `max(existing, now + default timeout)`. -/
theorem getSession_live_branch (st : SessionMap) (id : String) (now : Nat)
    (e : SessionContextEntry) (he : lookupEntry st.map id = some e)
    (hlive : now < e.expiry) :
    (st.GetSession id now).1 = e.ctx ∧
    lookupEntry (st.GetSession id now).2.map id
      = some ⟨e.ctx, max (now + st.default_timeout) e.expiry⟩ := by
  constructor
  · simp only [SessionMap.GetSession, he]
    rw [if_pos hlive]
  · simp only [SessionMap.GetSession, he]
    rw [if_pos hlive]
    have hset := lookupEntry_setExpiry st.map id e
      (max (now + st.default_timeout) e.expiry) he
    have hgt : now < max (now + st.default_timeout) e.expiry :=
      Nat.lt_of_lt_of_le hlive (Nat.le_max_right _ _)
    exact shortClean_preserves_live _ now id _ hset hgt

/-- The fresh branch of `GetSession`: a fresh context reference is
returned; it is installed only when the id was absent, and when the id was
present (necessarily expired) the stored entry survives unchanged except
for possible reaping. -/
theorem getSessionFresh_spec (st : SessionMap) (id : String) (now : Nat) :
    (st.GetSessionFreshBranch id now).1 = st.next_ctx ∧
    (lookupEntry st.map id = none →
      lookupEntry (st.GetSessionFreshBranch id now).2.map id
        = some ⟨st.next_ctx, now + max kMinSessionTimeout st.default_timeout⟩) ∧
    (∀ e, lookupEntry st.map id = some e →
      ∀ e2, lookupEntry (st.GetSessionFreshBranch id now).2.map id = some e2 →
        e2 = e) := by
  have hk : 0 < kMinSessionTimeout := by norm_num [kMinSessionTimeout]
  refine ⟨rfl, ?_, ?_⟩
  · intro habs
    simp only [SessionMap.GetSessionFreshBranch]
    have hemp := lookupEntry_emplace_absent st.map id
      ⟨st.next_ctx, now + max kMinSessionTimeout st.default_timeout⟩ habs
    have hgt : now < now + max kMinSessionTimeout st.default_timeout :=
      Nat.lt_add_of_pos_right
        (Nat.lt_of_lt_of_le hk (Nat.le_max_left _ _))
    exact shortClean_preserves_live _ now id _ hemp hgt
  · intro e he e2 h2
    simp only [SessionMap.GetSessionFreshBranch] at h2
    have hnoop := emplace_present st.map id
      ⟨st.next_ctx, now + max kMinSessionTimeout st.default_timeout⟩ e he
    have h3 := shortClean_subset _ now id e2 h2
    rw [hnoop] at h3
    rw [he] at h3
    exact (Option.some_inj.mp h3).symm

/-- C7 (amended): `GetSession(s)` under one mutex acquisition behaves as
follows.  If `s` is present and live, the stored Context reference is
returned and its expiry becomes `max(existing, now + default timeout)`,
with a heap entry pushed only when the expiry changed; consecutive calls
within the window return the same reference.  If `s` is absent, a fresh
Context is installed with expiry `now + max(default timeout, 1 s)` and
returned.  If `s` is present but expired, a fresh Context is returned and
a heap entry pushed, but — `map_.emplace` being a no-op on a present key —
the fresh Context is **not** installed: the map keeps the old entry (until
reaped). -/
theorem claim7_get_session_behavior (st : SessionMap) (id : String)
    (now : Nat) :
    (∀ e, lookupEntry st.map id = some e → now < e.expiry →
      (st.GetSession id now).1 = e.ctx ∧
      lookupEntry (st.GetSession id now).2.map id
        = some ⟨e.ctx, max (now + st.default_timeout) e.expiry⟩ ∧
      (max (now + st.default_timeout) e.expiry = e.expiry →
        (st.GetSession id now).2
          = SessionMap.ShortClean
              { st with map := (setEntryExpiry st.map id
                  (max (now + st.default_timeout) e.expiry)) } now) ∧
      (max (now + st.default_timeout) e.expiry ≠ e.expiry →
        (st.GetSession id now).2
          = SessionMap.ShortClean
              { st with
                map := (setEntryExpiry st.map id
                  (max (now + st.default_timeout) e.expiry))
                pqueue := (heapPush st.pqueue
                  ⟨id, max (now + st.default_timeout) e.expiry⟩) } now)) ∧
    (lookupEntry st.map id = none →
      (st.GetSession id now).1 = st.next_ctx ∧
      lookupEntry (st.GetSession id now).2.map id
        = some ⟨st.next_ctx, now + max kMinSessionTimeout st.default_timeout⟩) ∧
    (∀ e, lookupEntry st.map id = some e → e.expiry ≤ now →
      (st.GetSession id now).1 = st.next_ctx ∧
      (∀ e2, lookupEntry (st.GetSession id now).2.map id = some e2 →
        e2 = e)) ∧
    (∀ e, lookupEntry st.map id = some e → now < e.expiry →
      ∀ now2, now2 < max (now + st.default_timeout) e.expiry →
        ((st.GetSession id now).2.GetSession id now2).1 = e.ctx) := by
  refine ⟨?_, ?_, ?_, ?_⟩
  · intro e he hlive
    obtain ⟨h1, h2⟩ := getSession_live_branch st id now e he hlive
    refine ⟨h1, h2, ?_, ?_⟩
    · intro heq
      simp only [SessionMap.GetSession, he]
      rw [if_pos hlive]
      simp only [heq, ne_eq, not_true_eq_false, if_false, ite_false]
    · intro hne
      simp only [SessionMap.GetSession, he]
      rw [if_pos hlive]
      simp only [ne_eq, hne, not_false_eq_true, if_true, ite_true]
  · intro habs
    have h := getSessionFresh_spec st id now
    constructor
    · simp only [SessionMap.GetSession, habs]
      exact h.1
    · simp only [SessionMap.GetSession, habs]
      exact h.2.1 habs
  · intro e he hexp
    have h := getSessionFresh_spec st id now
    have hnotlive : ¬ now < e.expiry := by omega
    constructor
    · simp only [SessionMap.GetSession, he]
      rw [if_neg hnotlive]
      exact h.1
    · intro e2 h2
      simp only [SessionMap.GetSession, he] at h2
      rw [if_neg hnotlive] at h2
      exact h.2.2 e he e2 h2
  · intro e he hlive now2 hwin
    obtain ⟨h1, h2⟩ := getSession_live_branch st id now e he hlive
    exact (getSession_live_branch _ id now2 _ h2 hwin).1

/-- A session map with a present but expired entry, refuting the claim's
install-on-miss clause. -/
def c7ExpiredState : SessionMap where
  map := [("s", ⟨0, 5⟩)]
  pqueue := heapInit
  default_timeout := 1000
  next_ctx := 1

/-- Counterexample to C7 as stated: at `now = 10` the entry for `"s"`
(expiry 5) is expired, so `GetSession` takes the fresh branch and returns
the fresh Context reference 1 — but the map still holds the old entry
`⟨0, 5⟩`; the fresh Context with expiry `now + max(default timeout, 1 s)
= 1010` was *not* installed, contrary to the claim. -/
theorem claim7_counterexample_expired_not_installed :
    (c7ExpiredState.GetSession "s" 10).1 = 1 ∧
    lookupEntry (c7ExpiredState.GetSession "s" 10).2.map "s" = some ⟨0, 5⟩ ∧
    (⟨0, 5⟩ : SessionContextEntry)
      ≠ ⟨1, 10 + max kMinSessionTimeout 1000⟩ := by
  refine ⟨?_, ?_, ?_⟩ <;> decide

/-- A session map with a live entry for `"s"`. -/
def c7LiveState : SessionMap where
  map := [("s", ⟨3, 50⟩)]
  pqueue := heapInit
  default_timeout := 1000
  next_ctx := 7

/-- An empty session map. -/
def c7EmptyState : SessionMap where
  map := []
  pqueue := heapInit
  default_timeout := 1000
  next_ctx := 7

/-- Witness for C7: on the live entry `⟨3, 50⟩` at `now = 10` the stored
reference 3 is returned and the expiry becomes `max(10 + 1000, 50) =
1010`; a second call at `now = 500` (within the window) returns the same
reference; on the empty map a fresh Context 7 is installed with expiry
`10 + max(1000, 1000) = 1010`. -/
theorem claim7_get_session_witness :
    (c7LiveState.GetSession "s" 10).1 = 3 ∧
    lookupEntry (c7LiveState.GetSession "s" 10).2.map "s" = some ⟨3, 1010⟩ ∧
    ((c7LiveState.GetSession "s" 10).2.GetSession "s" 500).1 = 3 ∧
    (c7EmptyState.GetSession "s" 10).1 = 7 ∧
    lookupEntry (c7EmptyState.GetSession "s" 10).2.map "s"
      = some ⟨7, 1010⟩ := by
  have hl := claim7_get_session_behavior c7LiveState "s" 10
  have he := claim7_get_session_behavior c7EmptyState "s" 10
  have h1 := hl.1 ⟨3, 50⟩ (by decide) (by decide)
  have h4 := hl.2.2.2 ⟨3, 50⟩ (by decide) (by decide) 500 (by decide)
  have h2 := he.2.1 (by decide)
  exact ⟨h1.1, h1.2.1.trans (by decide), h4, h2.1, h2.2.trans (by decide)⟩

/-- Witness for C10 at the fresh table: a parse failure and a matching
failure both give the default result. -/
theorem claim10_unparseable_target_witness :
    initialHttpRouteTable.Route HttpRequestMethod.kGet none
      = initialHttpRouteTable.BuildDefaultRouteResult ∧
    initialHttpRouteTable.Route HttpRequestMethod.kGet (some ["nosuch"])
      = initialHttpRouteTable.BuildDefaultRouteResult :=
  ⟨(claim10_unparseable_target_defaults initialHttpRouteTable
      HttpRequestMethod.kGet).1,
   (claim10_unparseable_target_defaults initialHttpRouteTable
      HttpRequestMethod.kGet).2.2.1 emptyLayer ["nosuch"] rfl rfl⟩

end Bsrvcore
